import Mathlib

/-!
Shallow embedding of the document-extraction normalization code of the
PROTOCOL-EXTRACTOR repository, translated from src/lib/mistral-ocr.ts and
src/lib/mistral-budget-cta.ts.

JavaScript runtime values are modelled by the inductive type JsValue.
JavaScript numbers are modelled as NaN, signed infinity, or a decimal
rational m / 10 ^ e.  The two magnitude effects of the double format
that the verified properties can observe are modelled exactly: values
at or beyond the overflow rounding boundary 2 ^ 1024 − 2 ^ 970 become
±Infinity (in parseInt, parseFloat and JSON.parse), and number-to-string
conversion switches to exponent notation at 10 ^ 21 and below 10 ^ −6,
per ECMAScript Number::toString.  Rounding of in-range values to the
nearest double is not modelled; the stability hypotheses of the
round-trip theorems are stated against the decimal values themselves.
Property access on null or undefined, and strict-mode
property assignment on primitives, raise TypeError; this is modelled
with Except.  The code of the repository is the authority for every
definition below.
-/

/-- JavaScript numbers: NaN, infinity (the Bool is the sign, true for
positive), or the exact decimal value m / 10 ^ e. -/
inductive JsNum where
  | nan : JsNum
  | inf : Bool → JsNum
  | dec : Int → Nat → JsNum
deriving DecidableEq, Repr

/-- JavaScript values as produced by JSON.parse and by the normalizers. -/
inductive JsValue where
  | null : JsValue
  | undefined : JsValue
  | bool : Bool → JsValue
  | num : JsNum → JsValue
  | str : String → JsValue
  | arr : List JsValue → JsValue
  | obj : List (String × JsValue) → JsValue

mutual

/-- Decidable equality of JsValue (the derive handler does not support
this nested inductive, so the instance is spelled out). -/
def jsDecEq : (a b : JsValue) → Decidable (a = b)
  | .null, .null => isTrue rfl
  | .undefined, .undefined => isTrue rfl
  | .bool a, .bool b =>
      match decEq a b with
      | isTrue h => isTrue (by rw [h])
      | isFalse h => isFalse (fun he => by cases he; exact h rfl)
  | .num a, .num b =>
      match decEq a b with
      | isTrue h => isTrue (by rw [h])
      | isFalse h => isFalse (fun he => by cases he; exact h rfl)
  | .str a, .str b =>
      match decEq a b with
      | isTrue h => isTrue (by rw [h])
      | isFalse h => isFalse (fun he => by cases he; exact h rfl)
  | .arr xs, .arr ys =>
      match jsDecEqList xs ys with
      | isTrue h => isTrue (by rw [h])
      | isFalse h => isFalse (fun he => by cases he; exact h rfl)
  | .obj fs, .obj gs =>
      match jsDecEqFields fs gs with
      | isTrue h => isTrue (by rw [h])
      | isFalse h => isFalse (fun he => by cases he; exact h rfl)
  | .null, .undefined => isFalse nofun
  | .null, .bool _ => isFalse nofun
  | .null, .num _ => isFalse nofun
  | .null, .str _ => isFalse nofun
  | .null, .arr _ => isFalse nofun
  | .null, .obj _ => isFalse nofun
  | .undefined, .null => isFalse nofun
  | .undefined, .bool _ => isFalse nofun
  | .undefined, .num _ => isFalse nofun
  | .undefined, .str _ => isFalse nofun
  | .undefined, .arr _ => isFalse nofun
  | .undefined, .obj _ => isFalse nofun
  | .bool _, .null => isFalse nofun
  | .bool _, .undefined => isFalse nofun
  | .bool _, .num _ => isFalse nofun
  | .bool _, .str _ => isFalse nofun
  | .bool _, .arr _ => isFalse nofun
  | .bool _, .obj _ => isFalse nofun
  | .num _, .null => isFalse nofun
  | .num _, .undefined => isFalse nofun
  | .num _, .bool _ => isFalse nofun
  | .num _, .str _ => isFalse nofun
  | .num _, .arr _ => isFalse nofun
  | .num _, .obj _ => isFalse nofun
  | .str _, .null => isFalse nofun
  | .str _, .undefined => isFalse nofun
  | .str _, .bool _ => isFalse nofun
  | .str _, .num _ => isFalse nofun
  | .str _, .arr _ => isFalse nofun
  | .str _, .obj _ => isFalse nofun
  | .arr _, .null => isFalse nofun
  | .arr _, .undefined => isFalse nofun
  | .arr _, .bool _ => isFalse nofun
  | .arr _, .num _ => isFalse nofun
  | .arr _, .str _ => isFalse nofun
  | .arr _, .obj _ => isFalse nofun
  | .obj _, .null => isFalse nofun
  | .obj _, .undefined => isFalse nofun
  | .obj _, .bool _ => isFalse nofun
  | .obj _, .num _ => isFalse nofun
  | .obj _, .str _ => isFalse nofun
  | .obj _, .arr _ => isFalse nofun

def jsDecEqList : (xs ys : List JsValue) → Decidable (xs = ys)
  | [], [] => isTrue rfl
  | [], _ :: _ => isFalse nofun
  | _ :: _, [] => isFalse nofun
  | x :: xs, y :: ys =>
      match jsDecEq x y with
      | isFalse h => isFalse (fun he => by cases he; exact h rfl)
      | isTrue h1 =>
        match jsDecEqList xs ys with
        | isTrue h2 => isTrue (by rw [h1, h2])
        | isFalse h => isFalse (fun he => by cases he; exact h rfl)

def jsDecEqFields : (fs gs : List (String × JsValue)) → Decidable (fs = gs)
  | [], [] => isTrue rfl
  | [], _ :: _ => isFalse nofun
  | _ :: _, [] => isFalse nofun
  | (k, v) :: fs, (l, w) :: gs =>
      match decEq k l with
      | isFalse h => isFalse (fun he => by cases he; exact h rfl)
      | isTrue h1 =>
        match jsDecEq v w with
        | isFalse h => isFalse (fun he => by cases he; exact h rfl)
        | isTrue h2 =>
          match jsDecEqFields fs gs with
          | isTrue h3 => isTrue (by rw [h1, h2, h3])
          | isFalse h => isFalse (fun he => by cases he; exact h rfl)

end

instance : DecidableEq JsValue := jsDecEq

instance {ε α : Type} [DecidableEq ε] [DecidableEq α] : DecidableEq (Except ε α) := fun a b =>
  match a, b with
  | .ok x, .ok y =>
      match decEq x y with
      | isTrue h => isTrue (by rw [h])
      | isFalse h => isFalse (fun he => by cases he; exact h rfl)
  | .error x, .error y =>
      match decEq x y with
      | isTrue h => isTrue (by rw [h])
      | isFalse h => isFalse (fun he => by cases he; exact h rfl)
  | .ok _, .error _ => isFalse nofun
  | .error _, .ok _ => isFalse nofun

/-- Truthiness of a JavaScript number: NaN and 0 are falsy. -/
def JsNum.truthy : JsNum → Bool
  | .nan => false
  | .inf _ => true
  | .dec m _ => m != 0

/-- The JavaScript comparison n > 0 for a number n (false for NaN). -/
def JsNum.gtZero : JsNum → Bool
  | .nan => false
  | .inf b => b
  | .dec m _ => 0 < m

/-- Number.isFinite. -/
def JsNum.isFinite : JsNum → Bool
  | .dec _ _ => true
  | _ => false

/-- JavaScript truthiness: false, 0, NaN, "", null, undefined are falsy;
every object (including [] and the empty object) is truthy. -/
def jsTruthy : JsValue → Bool
  | .null => false
  | .undefined => false
  | .bool b => b
  | .num n => n.truthy
  | .str s => s != ""
  | .arr _ => true
  | .obj _ => true

/-- The JavaScript expression a || b. -/
def jsOr (a b : JsValue) : JsValue := if jsTruthy a then a else b

/-- The idiom x || undefined used throughout the builders. -/
def jsOrUndef (a : JsValue) : JsValue := jsOr a .undefined

/-- Look up a key in an object's field list (keys are unique in every
object produced by the modelled code; JSON.parse resolves duplicate
keys before this is reached). -/
def lookupField : List (String × JsValue) → String → JsValue
  | [], _ => .undefined
  | (k, v) :: rest, key => if k = key then v else lookupField rest key

/-- Property read o.k: TypeError on a null/undefined base, undefined on a
primitive base or a missing key.  (The modelled code never reads index
or length properties of arrays.) -/
def getField : JsValue → String → Except String JsValue
  | .null, _ => .error "TypeError: Cannot read properties of null"
  | .undefined, _ => .error "TypeError: Cannot read properties of undefined"
  | .obj fs, key => .ok (lookupField fs key)
  | _, _ => .ok .undefined

/-- Total property read used in theorem statements; agrees with getField
whenever getField succeeds. -/
def jget (v : JsValue) (key : String) : JsValue :=
  match v with
  | .obj fs => lookupField fs key
  | _ => .undefined

/-- Optional chaining a?.k: undefined (no TypeError) on null/undefined. -/
def getFieldOpt (v : JsValue) (key : String) : JsValue :=
  match v with
  | .obj fs => lookupField fs key
  | _ => .undefined

/-- The character for a decimal digit d < 10. -/
def digitChar (d : Nat) : Char := Char.ofNat (48 + d)

/-- The value of a decimal digit character. -/
def digitVal (c : Char) : Nat := c.toNat - 48

def isDigitChar (c : Char) : Bool := 48 ≤ c.toNat && c.toNat ≤ 57

/-- Decimal digit characters of a natural number, most significant first. -/
def natDigitChars (n : Nat) : List Char :=
  if n = 0 then [digitChar 0] else ((Nat.digits 10 n).map digitChar).reverse

/-- Decimal string of a natural number. -/
def natStr (n : Nat) : String := String.mk (natDigitChars n)

/-- Trailing zeros removed from a digit list, together with how many
were removed. -/
def stripTrailingZeros (ds : List Char) : List Char × Nat :=
  let r := (ds.reverse.dropWhile (fun c => c = '0')).reverse
  (r, ds.length - r.length)

/-- ECMAScript Number::toString for a positive value with significant
digit characters S (no trailing zeros, length k) and decimal-point
position n (value = 0.S × 10 ^ n): positional notation while
−6 < n ≤ 21, exponent notation outside. -/
def decStringPos (S : List Char) (k : Nat) (n : Int) : String :=
  if k ≤ n ∧ n ≤ 21 then String.mk (S ++ List.replicate (n.toNat - k) (digitChar 0))
  else if 0 < n ∧ n ≤ 21 then
    String.mk (S.take n.toNat) ++ "." ++ String.mk (S.drop n.toNat)
  else if -6 < n ∧ n ≤ 0 then
    "0." ++ String.mk (List.replicate (-n).toNat (digitChar 0)) ++ String.mk S
  else
    let mant :=
      if k = 1 then String.mk S else String.mk (S.take 1) ++ "." ++ String.mk (S.drop 1)
    if 0 ≤ n - 1 then mant ++ "e+" ++ natStr (n - 1).toNat
    else mant ++ "e-" ++ natStr (1 - n).toNat

/-- Number-to-string conversion for the exact decimal m / 10 ^ e,
following ECMAScript Number::toString: plain positional notation
(12.34, 0.005, 100) for magnitudes in [1e-6, 1e21), exponent notation
(1e+21, 5e-7) outside. -/
def decString (m : Int) (e : Nat) : String :=
  if m = 0 then "0"
  else
    let sign := if m < 0 then "-" else ""
    let ds := natDigitChars m.natAbs
    let sz := stripTrailingZeros ds
    sign ++ decStringPos sz.1 sz.1.length ((ds.length : Int) - (e : Int))

/-- ECMAScript ToString for numbers. -/
def jsNumToString : JsNum → String
  | .nan => "NaN"
  | .inf true => "Infinity"
  | .inf false => "-Infinity"
  | .dec m e => decString m e

mutual

/-- ECMAScript ToString, as invoked by String(x) in ensureArray and by the
implicit argument coercion of parseFloat / parseInt. -/
def jsToString : JsValue → String
  | .null => "null"
  | .undefined => "undefined"
  | .bool true => "true"
  | .bool false => "false"
  | .num n => jsNumToString n
  | .str s => s
  | .arr xs => String.intercalate "," (jsToStringElems xs)
  | .obj _ => "[object Object]"

/-- Array.prototype.toString joins elements with commas; null and
undefined elements print as the empty string. -/
def jsToStringElems : List JsValue → List String
  | [] => []
  | x :: xs =>
      (match x with
        | .null => ""
        | .undefined => ""
        | y => jsToString y) :: jsToStringElems xs

end

/-- The white-space set recognised by String.prototype.trim and by the
number parsers (space, tab, LF, CR, VT, FF, NBSP, BOM). -/
def isJsSpace (c : Char) : Bool :=
  c = ' ' || c = '\t' || c = '\n' || c = '\r' ||
    c.toNat = 11 || c.toNat = 12 || c.toNat = 160 || c.toNat = 65279

def trimLeftChars (l : List Char) : List Char := l.dropWhile isJsSpace

def trimRightChars (l : List Char) : List Char :=
  (l.reverse.dropWhile isJsSpace).reverse

def trimChars (l : List Char) : List Char := trimRightChars (trimLeftChars l)

/-- String.prototype.trim. -/
def jsTrim (s : String) : String := String.mk (trimChars s.toList)

/-- Strip an optional sign; returns (isNegative, rest). -/
def stripSign : List Char → Bool × List Char
  | c :: rest =>
      if c = '-' then (true, rest)
      else if c = '+' then (false, rest) else (false, c :: rest)
  | [] => (false, [])

/-- Numeric value of a list of decimal digit characters, most significant
first. -/
def charsToNat (cs : List Char) : Nat := Nat.ofDigits 10 ((cs.map digitVal).reverse)

def isHexDigitChar (c : Char) : Bool :=
  isDigitChar c || (97 ≤ c.toNat && c.toNat ≤ 102) || (65 ≤ c.toNat && c.toNat ≤ 70)

def hexVal (c : Char) : Nat :=
  if isDigitChar c then c.toNat - 48
  else if 97 ≤ c.toNat && c.toNat ≤ 102 then c.toNat - 87
  else c.toNat - 55

def charsToNatHex (cs : List Char) : Nat := Nat.ofDigits 16 ((cs.map hexVal).reverse)

/-- Strip the largest shared power of ten between the mantissa and the
scale, so that parsed numbers are in canonical form. -/
def canonDec (m : Int) : Nat → JsNum
  | 0 => .dec m 0
  | e + 1 => if m % 10 = 0 then canonDec (m / 10) e else .dec m (e + 1)

/-- The IEEE-754 double overflow rounding boundary 2 ^ 1024 − 2 ^ 970:
any value of magnitude at or beyond it rounds to ±Infinity. -/
def doubleOverflowBound : Nat := 2 ^ 970 * (2 ^ 54 - 1)

/-- Does the decimal m / 10 ^ e overflow the double range? -/
def overflowsDouble (m : Int) (e : Nat) : Bool :=
  doubleOverflowBound * 10 ^ e ≤ m.natAbs

/-- The signed decimal value (± mant) · 10 ^ (exp − e10), canonicalised,
saturating to ±Infinity at the double overflow boundary. -/
def mkDecExp (neg : Bool) (mant : Nat) (e10 : Nat) (exp : Int) : JsNum :=
  let sm : Int := if neg then -(mant : Int) else (mant : Int)
  let k : Int := exp - (e10 : Int)
  if 0 ≤ k then
    if overflowsDouble (sm * 10 ^ k.toNat) 0 then .inf (!neg)
    else .dec (sm * 10 ^ k.toNat) 0
  else
    if overflowsDouble sm (-k).toNat then .inf (!neg) else canonDec sm (-k).toNat

/-- An optional exponent suffix e[±]digits; not consumed (value 0) when the
digits are missing, per the longest-valid-prefix rule of parseFloat. -/
def parseExpSuffix (cs : List Char) : Int :=
  match cs with
  | c :: rest =>
      if c = 'e' || c = 'E' then
        let (eneg, rest2) := stripSign rest
        let ds := rest2.takeWhile isDigitChar
        if ds = [] then 0
        else if eneg then -(charsToNat ds : Int) else (charsToNat ds : Int)
      else 0
  | [] => 0

/-- ECMAScript parseFloat on a string: leading white space, optional sign,
then the literal Infinity or the longest decimal-literal prefix
(digits [. digits] [exponent]); NaN when no prefix parses. -/
def parseFloatString (s : String) : JsNum :=
  let cs := (s.toList).dropWhile isJsSpace
  let (neg, cs) := stripSign cs
  if cs.take 8 = "Infinity".toList then .inf (!neg)
  else
    let ip := cs.takeWhile isDigitChar
    let cs1 := cs.drop ip.length
    let (fp, cs2) :=
      match cs1 with
      | c :: rest =>
          if c = '.' then (rest.takeWhile isDigitChar, rest.drop (rest.takeWhile isDigitChar).length)
          else ([], cs1)
      | [] => ([], [])
    if ip = [] && fp = [] then .nan
    else mkDecExp neg (charsToNat (ip ++ fp)) fp.length (parseExpSuffix cs2)

/-- The 0x / 0X radix prefix detection of parseInt. -/
def hexPrefixRest : List Char → Option (List Char)
  | c0 :: c1 :: rest => if c0 = '0' && (c1 = 'x' || c1 = 'X') then some rest else none
  | _ => none

/-- The integer result of parseInt rounded to the double line: magnitudes
at or beyond the overflow boundary become ±Infinity. -/
def intToNumber (neg : Bool) (n : Nat) : JsNum :=
  if doubleOverflowBound ≤ n then .inf (!neg)
  else .dec (if neg then -(n : Int) else (n : Int)) 0

/-- ECMAScript parseInt with no radix argument: leading white space,
optional sign, a 0x/0X prefix selecting hexadecimal, then the longest
digit prefix; NaN when there is none, ±Infinity when the digits exceed
the double range. -/
def parseIntString (s : String) : JsNum :=
  let cs := (s.toList).dropWhile isJsSpace
  let (neg, cs) := stripSign cs
  match hexPrefixRest cs with
  | some rest =>
      let ds := rest.takeWhile isHexDigitChar
      if ds = [] then .nan else intToNumber neg (charsToNatHex ds)
  | none =>
      let ds := cs.takeWhile isDigitChar
      if ds = [] then .nan else intToNumber neg (charsToNat ds)

/-- parseFloat as applied to an arbitrary value: the argument is first
converted with ToString.  For a number argument the conversion followed
by the parse is the identity (JavaScript prints numbers with enough
digits to round-trip), which is taken as a single step here. -/
def jsParseFloat : JsValue → JsNum
  | .num n => n
  | v => parseFloatString (jsToString v)

/-- parseInt as applied to an arbitrary value (ToString, then parse). -/
def jsParseInt (v : JsValue) : JsNum := parseIntString (jsToString v)

/-- The idiom parseFloat(x) || 0 / parseInt(x) || 0: NaN and 0 collapse
to 0. -/
def numOr0 (n : JsNum) : JsNum := if n.truthy then n else .dec 0 0

/-!
ensureArray (src/lib/mistral-ocr.ts, lines 216-228) and the protocol
field normalization (lines 153-156 of extractProtocolData).
-/

/-- ensureArray: an array is stringified/trimmed element-wise and falsy
(empty) entries are dropped; a string with non-blank content is split on
newlines or wrapped as a singleton; anything else yields []. -/
def ensureArray (value : JsValue) : JsValue :=
  match value with
  | .arr items =>
      .arr ((((items.map (fun item => jsTrim (jsToString item))).filter
        (fun s => s != "")).map JsValue.str))
  | .str s =>
      if jsTrim s != "" then
        if s.contains '\n' then
          .arr ((((s.splitOn "\n").map jsTrim).filter (fun t => t != "")).map JsValue.str)
        else .arr [JsValue.str (jsTrim s)]
      else .arr []
  | _ => .arr []

/-- target_enrollment: parseInt(String(x)) || 0. -/
def coerceEnrollment (v : JsValue) : JsNum := numOr0 (parseIntString (jsToString v))

/-- Property write base: an object or an array may receive named
properties (an array is viewed through its keyed fields); assignment to
a property of null, undefined, or a primitive throws in strict mode
(the repository ships ES modules, which are strict). -/
def asPropBase : JsValue → Except String (List (String × JsValue))
  | .obj fs => .ok fs
  | .arr xs => .ok (xs.enum.map (fun p => (natStr p.1, p.2)))
  | _ => .error "TypeError: Cannot set properties of a primitive"

/-- Property write o.k = v (replace or append). -/
def setField : List (String × JsValue) → String → JsValue → List (String × JsValue)
  | [], key, v => [(key, v)]
  | (k, w) :: rest, key, v =>
      if k = key then (key, v) :: rest else (k, w) :: setField rest key v

/-- The four mutating statements of extractProtocolData applied to the
parsed data object, in source order. -/
def buildProtocolData (d : JsValue) : Except String JsValue := do
  let fs ← asPropBase d
  let fs := setField fs "inclusion_criteria" (ensureArray (lookupField fs "inclusion_criteria"))
  let fs := setField fs "exclusion_criteria" (ensureArray (lookupField fs "exclusion_criteria"))
  let fs := setField fs "visit_schedule" (ensureArray (lookupField fs "visit_schedule"))
  let fs := setField fs "target_enrollment"
    (.num (coerceEnrollment (lookupField fs "target_enrollment")))
  pure (.obj fs)

/-!
Budget and CTA normalization (src/lib/mistral-budget-cta.ts).
-/

/-- Array.isArray(x) ? x : []. -/
def ensureIsArray (v : JsValue) : JsValue :=
  match v with
  | .arr xs => .arr xs
  | _ => .arr []

/-- Array.prototype.map under exception semantics: the callback runs on
the elements in order and the first TypeError propagates. -/
def mapExcept (f : JsValue → Except String JsValue) : List JsValue → Except String (List JsValue)
  | [] => .ok []
  | x :: xs =>
      match f x with
      | .error e => .error e
      | .ok y =>
          match mapExcept f xs with
          | .error e => .error e
          | .ok ys => .ok (y :: ys)

/-- parseFloat(x) || 0, the amount coercion of the three payment
mappers. -/
def coerceAmount (v : JsValue) : JsNum := numOr0 (jsParseFloat v)

/-- parseInt(x) || undefined, the visit_number coercion. -/
def coerceVisitNumber (v : JsValue) : JsValue :=
  let n := jsParseInt v
  if n.truthy then .num n else .undefined

/-- The test x > 0 as applied by the payment filters to the field key of
a built item (every built item carries a number there). -/
def amountGtZero (p : JsValue) (key : String) : Bool :=
  match jget p key with
  | .num n => n.gtZero
  | _ => false

/-- Array.isArray. -/
def isArr : JsValue → Bool
  | .arr _ => true
  | _ => false

/-- typeof v === "string". -/
def isStr : JsValue → Bool
  | .str _ => true
  | _ => false

/-- The per-item mapper of ensureProcedurePayments (lines 574-581). -/
def mapProcItem (item : JsValue) : Except String JsValue := do
  let name ← getField item "procedure_name"
  let amount ← getField item "payment_amount"
  let currency ← getField item "currency"
  let perPatient ← getField item "per_patient"
  let visitAssoc ← getField item "visit_associated"
  let notes ← getField item "notes"
  pure (.obj [
    ("procedure_name", jsOr name (.str "Unknown Procedure")),
    ("payment_amount", .num (coerceAmount amount)),
    ("currency", jsOr currency (.str "USD")),
    ("per_patient", .bool (perPatient != JsValue.bool false)),
    ("visit_associated", jsOrUndef visitAssoc),
    ("notes", jsOrUndef notes)])

/-- The filter of ensureProcedurePayments: p.procedure_name is truthy and
p.payment_amount > 0.  Every item reaching the filter carries a number
in payment_amount (put there by the mapper). -/
def keepProc (p : JsValue) : Bool :=
  jsTruthy (jget p "procedure_name") && amountGtZero p "payment_amount"

/-- ensureProcedurePayments (lines 572-582). -/
def ensureProcedurePayments (value : JsValue) : Except String JsValue :=
  match value with
  | .arr items =>
      match mapExcept mapProcItem items with
      | .error e => .error e
      | .ok mapped => .ok (.arr (mapped.filter keepProc))
  | _ => .ok (.arr [])

/-- The per-item mapper of ensureVisitPayments (lines 589-595). -/
def mapVisitItem (item : JsValue) : Except String JsValue := do
  let name ← getField item "visit_name"
  let visitNumber ← getField item "visit_number"
  let total ← getField item "total_payment"
  let currency ← getField item "currency"
  let procs ← getField item "procedures_included"
  pure (.obj [
    ("visit_name", jsOr name (.str "Unknown Visit")),
    ("visit_number", coerceVisitNumber visitNumber),
    ("total_payment", .num (coerceAmount total)),
    ("currency", jsOr currency (.str "USD")),
    ("procedures_included", ensureIsArray procs)])

/-- The filter of ensureVisitPayments: v.visit_name truthy and
v.total_payment > 0. -/
def keepVisit (p : JsValue) : Bool :=
  jsTruthy (jget p "visit_name") && amountGtZero p "total_payment"

/-- ensureVisitPayments (lines 587-596). -/
def ensureVisitPayments (value : JsValue) : Except String JsValue :=
  match value with
  | .arr items =>
      match mapExcept mapVisitItem items with
      | .error e => .error e
      | .ok mapped => .ok (.arr (mapped.filter keepVisit))
  | _ => .ok (.arr [])

/-- The per-item mapper of ensureMilestonePayments (lines 603-608). -/
def mapMilestoneItem (item : JsValue) : Except String JsValue := do
  let name ← getField item "milestone_name"
  let amount ← getField item "payment_amount"
  let currency ← getField item "currency"
  let trigger ← getField item "trigger_condition"
  pure (.obj [
    ("milestone_name", jsOr name (.str "Unknown Milestone")),
    ("payment_amount", .num (coerceAmount amount)),
    ("currency", jsOr currency (.str "USD")),
    ("trigger_condition", jsOr trigger (.str ""))])

/-- The filter of ensureMilestonePayments: m.milestone_name truthy and
m.payment_amount > 0. -/
def keepMilestone (p : JsValue) : Bool :=
  jsTruthy (jget p "milestone_name") && amountGtZero p "payment_amount"

/-- ensureMilestonePayments (lines 601-609). -/
def ensureMilestonePayments (value : JsValue) : Except String JsValue :=
  match value with
  | .arr items =>
      match mapExcept mapMilestoneItem items with
      | .error e => .error e
      | .ok mapped => .ok (.arr (mapped.filter keepMilestone))
  | _ => .ok (.arr [])

/-- The BudgetData object literal of extractBudgetData (lines 288-308);
reading a field of a null/undefined rawData throws, caught by the
enclosing try. -/
def buildBudgetData (rawData : JsValue) : Except String JsValue := do
  let totalBudget ← getField rawData "total_budget"
  let currency ← getField rawData "currency"
  let budgetType ← getField rawData "budget_type"
  let perPatientTotal ← getField rawData "per_patient_total"
  let screenFailure ← getField rawData "screen_failure_payment"
  let earlyTermination ← getField rawData "early_termination_payment"
  let procedurePayments ← ensureProcedurePayments (← getField rawData "procedure_payments")
  let visitPayments ← ensureVisitPayments (← getField rawData "visit_payments")
  let milestonePayments ← ensureMilestonePayments (← getField rawData "milestone_payments")
  let startupCosts ← getField rawData "startup_costs"
  let annualMaintenance ← getField rawData "annual_maintenance"
  let closeoutCosts ← getField rawData "closeout_costs"
  let paymentTerms ← getField rawData "payment_terms"
  let passThrough ← getField rawData "pass_through_costs"
  let importantNotes ← getField rawData "important_notes"
  pure (.obj [
    ("total_budget", jsOrUndef totalBudget),
    ("currency", jsOr currency (.str "USD")),
    ("budget_type", jsOrUndef budgetType),
    ("per_patient_total", jsOrUndef perPatientTotal),
    ("screen_failure_payment", jsOrUndef screenFailure),
    ("early_termination_payment", jsOrUndef earlyTermination),
    ("procedure_payments", procedurePayments),
    ("visit_payments", visitPayments),
    ("milestone_payments", milestonePayments),
    ("startup_costs", jsOrUndef startupCosts),
    ("annual_maintenance", jsOrUndef annualMaintenance),
    ("closeout_costs", jsOrUndef closeoutCosts),
    ("payment_terms", jsOr paymentTerms (.obj [])),
    ("pass_through_costs", ensureIsArray passThrough),
    ("important_notes", ensureIsArray importantNotes)])

/-- The CTAData object literal of extractCTAData (lines 458-494); nested
reads under payment_info and timeline use optional chaining. -/
def buildCTAData (rawData : JsValue) : Except String JsValue := do
  let documentTitle ← getField rawData "document_title"
  let agreementNumber ← getField rawData "agreement_number"
  let sponsorName ← getField rawData "sponsor_name"
  let siteName ← getField rawData "site_name"
  let paymentInfo ← getField rawData "payment_info"
  let refBudget ← getField rawData "references_budget_amendment"
  let timeline ← getField rawData "timeline"
  let invoiceReq ← getField rawData "invoice_requirements"
  let invoiceMethod ← getField rawData "invoice_submission_method"
  let invoiceAddress ← getField rawData "invoice_submission_address"
  let holdConditions ← getField rawData "payment_hold_conditions"
  let auditReq ← getField rawData "audit_requirements"
  let sponsorContactName ← getField rawData "sponsor_contact_name"
  let sponsorContactEmail ← getField rawData "sponsor_contact_email"
  let financialContactName ← getField rawData "financial_contact_name"
  let financialContactEmail ← getField rawData "financial_contact_email"
  let importantNotes ← getField rawData "important_notes"
  pure (.obj [
    ("document_title", jsOrUndef documentTitle),
    ("agreement_number", jsOrUndef agreementNumber),
    ("sponsor_name", jsOr sponsorName (.str "Unknown Sponsor")),
    ("site_name", jsOrUndef siteName),
    ("payment_info", .obj [
      ("payment_method", jsOrUndef (getFieldOpt paymentInfo "payment_method")),
      ("payment_currency", jsOr (getFieldOpt paymentInfo "payment_currency") (.str "USD")),
      ("billing_address", jsOrUndef (getFieldOpt paymentInfo "billing_address")),
      ("payment_contact", jsOrUndef (getFieldOpt paymentInfo "payment_contact")),
      ("tax_requirements", jsOrUndef (getFieldOpt paymentInfo "tax_requirements"))]),
    ("references_budget_amendment",
      (match refBudget with
        | .str s => .str s
        | _ => .undefined)),
    ("timeline", .obj [
      ("agreement_effective_date", jsOrUndef (getFieldOpt timeline "agreement_effective_date")),
      ("study_start_date", jsOrUndef (getFieldOpt timeline "study_start_date")),
      ("estimated_end_date", jsOrUndef (getFieldOpt timeline "estimated_end_date")),
      ("invoice_submission_deadline",
        jsOrUndef (getFieldOpt timeline "invoice_submission_deadline"))]),
    ("invoice_requirements", ensureIsArray invoiceReq),
    ("invoice_submission_method", jsOrUndef invoiceMethod),
    ("invoice_submission_address", jsOrUndef invoiceAddress),
    ("payment_hold_conditions", ensureIsArray holdConditions),
    ("audit_requirements", jsOrUndef auditReq),
    ("sponsor_contact_name", jsOrUndef sponsorContactName),
    ("sponsor_contact_email", jsOrUndef sponsorContactEmail),
    ("financial_contact_name", jsOrUndef financialContactName),
    ("financial_contact_email", jsOrUndef financialContactEmail),
    ("important_notes", ensureIsArray importantNotes)])

/-!
JSON.parse(JSON.stringify(v)): the structural effect of re-serialising a
normalized record.  Object fields holding undefined are dropped,
undefined array elements and non-finite numbers serialise as null,
everything else is preserved (a finite decimal number re-parses to
itself, since JavaScript prints numbers with round-tripping precision).
-/

mutual

def jsonRoundtrip : JsValue → JsValue
  | .null => .null
  | .undefined => .null
  | .bool b => .bool b
  | .num .nan => .null
  | .num (.inf _) => .null
  | .num (.dec m e) => .num (.dec m e)
  | .str s => .str s
  | .arr xs => .arr (jsonRoundtripElems xs)
  | .obj fs => .obj (jsonRoundtripFields fs)

def jsonRoundtripElems : List JsValue → List JsValue
  | [] => []
  | x :: xs => jsonRoundtrip x :: jsonRoundtripElems xs

def jsonRoundtripFields : List (String × JsValue) → List (String × JsValue)
  | [] => []
  | (k, v) :: fs =>
      if v = JsValue.undefined then jsonRoundtripFields fs
      else (k, jsonRoundtrip v) :: jsonRoundtripFields fs

end

/-!
A JSON.parse model: recursive-descent parser for RFC 8259 JSON, with the
JavaScript behaviour of resolving duplicate object keys (the later wins).
Fuel-indexed; the top-level entry allots more fuel than any input can
consume, so running out of fuel is unreachable and merely reported as a
parse error.
-/

def jsonSkipWs (cs : List Char) : List Char :=
  cs.dropWhile (fun c => c = ' ' || c = '\t' || c = '\n' || c = '\r')

/-- Insert a parsed object member, overwriting an earlier duplicate key. -/
def insertJsonField (fs : List (String × JsValue)) (key : String) (v : JsValue) :
    List (String × JsValue) :=
  if (fs.map Prod.fst).contains key then setField fs key v else fs ++ [(key, v)]

/-- Parse a JSON string body after the opening quote; supports the two-
character escapes and \uXXXX. -/
def parseJsonStringBody : Nat → List Char → List Char → Except String (String × List Char)
  | 0, _, _ => .error "SyntaxError: fuel"
  | _ + 1, _, [] => .error "SyntaxError: unterminated string"
  | fuel + 1, acc, c :: rest =>
      if c.toNat = 34 then .ok (String.mk acc.reverse, rest)
      else if c.toNat = 92 then
        match rest with
        | [] => .error "SyntaxError: bad escape"
        | e :: rest2 =>
            if e.toNat = 34 then parseJsonStringBody fuel (Char.ofNat 34 :: acc) rest2
            else if e.toNat = 92 then parseJsonStringBody fuel (Char.ofNat 92 :: acc) rest2
            else if e = '/' then parseJsonStringBody fuel ('/' :: acc) rest2
            else if e = 'b' then parseJsonStringBody fuel (Char.ofNat 8 :: acc) rest2
            else if e = 'f' then parseJsonStringBody fuel (Char.ofNat 12 :: acc) rest2
            else if e = 'n' then parseJsonStringBody fuel ('\n' :: acc) rest2
            else if e = 'r' then parseJsonStringBody fuel ('\r' :: acc) rest2
            else if e = 't' then parseJsonStringBody fuel ('\t' :: acc) rest2
            else if e = 'u' then
              match rest2 with
              | h1 :: h2 :: h3 :: h4 :: rest3 =>
                  if isHexDigitChar h1 && isHexDigitChar h2 && isHexDigitChar h3 &&
                      isHexDigitChar h4 then
                    parseJsonStringBody fuel
                      (Char.ofNat (charsToNatHex [h1, h2, h3, h4]) :: acc) rest3
                  else .error "SyntaxError: bad unicode escape"
              | _ => .error "SyntaxError: bad unicode escape"
            else .error "SyntaxError: bad escape"
      else if c.toNat < 32 then .error "SyntaxError: control character in string"
      else parseJsonStringBody fuel (c :: acc) rest

/-- Parse a JSON number after an optional leading minus sign already
stripped: int [frac] [exp], where int is 0 or a nonzero-led digit run. -/
def parseJsonNumberTail (neg : Bool) (cs : List Char) : Except String (JsNum × List Char) :=
  let ip := cs.takeWhile isDigitChar
  if ip = [] then .error "SyntaxError: bad number"
  else if 1 < ip.length && ip.head? = some '0' then .error "SyntaxError: leading zero"
  else
    let cs1 := cs.drop ip.length
    match cs1 with
    | '.' :: rest =>
        let fp := rest.takeWhile isDigitChar
        if fp = [] then .error "SyntaxError: bad fraction"
        else
          let cs2 := rest.drop fp.length
          match cs2 with
          | e :: rest2 =>
              if e = 'e' || e = 'E' then
                let (eneg, rest3) := stripSign rest2
                let ds := rest3.takeWhile isDigitChar
                if ds = [] then .error "SyntaxError: bad exponent"
                else .ok (mkDecExp neg (charsToNat (ip ++ fp)) fp.length
                    (if eneg then -(charsToNat ds : Int) else (charsToNat ds : Int)),
                  rest3.drop ds.length)
              else .ok (mkDecExp neg (charsToNat (ip ++ fp)) fp.length 0, cs2)
          | [] => .ok (mkDecExp neg (charsToNat (ip ++ fp)) fp.length 0, [])
    | e :: rest2 =>
        if e = 'e' || e = 'E' then
          let (eneg, rest3) := stripSign rest2
          let ds := rest3.takeWhile isDigitChar
          if ds = [] then .error "SyntaxError: bad exponent"
          else .ok (mkDecExp neg (charsToNat ip) 0
              (if eneg then -(charsToNat ds : Int) else (charsToNat ds : Int)),
            rest3.drop ds.length)
        else .ok (mkDecExp neg (charsToNat ip) 0 0, cs1)
    | [] => .ok (mkDecExp neg (charsToNat ip) 0 0, [])

mutual

def parseJsonValue : Nat → List Char → Except String (JsValue × List Char)
  | 0, _ => .error "SyntaxError: fuel"
  | fuel + 1, cs =>
      match jsonSkipWs cs with
      | [] => .error "SyntaxError: unexpected end of input"
      | c :: rest =>
          if c.toNat = 123 then parseJsonObjBody fuel [] rest
          else if c.toNat = 91 then parseJsonArrBody fuel [] rest
          else if c.toNat = 34 then
            match parseJsonStringBody (fuel + 1) [] rest with
            | .ok (s, rest2) => .ok (.str s, rest2)
            | .error e => .error e
          else if c = 't' then
            if rest.take 3 = ['r', 'u', 'e'] then .ok (.bool true, rest.drop 3)
            else .error "SyntaxError: unexpected token"
          else if c = 'f' then
            if rest.take 4 = ['a', 'l', 's', 'e'] then .ok (.bool false, rest.drop 4)
            else .error "SyntaxError: unexpected token"
          else if c = 'n' then
            if rest.take 3 = ['u', 'l', 'l'] then .ok (.null, rest.drop 3)
            else .error "SyntaxError: unexpected token"
          else if c = '-' then
            match parseJsonNumberTail true rest with
            | .ok (n, rest2) => .ok (.num n, rest2)
            | .error e => .error e
          else if isDigitChar c then
            match parseJsonNumberTail false (c :: rest) with
            | .ok (n, rest2) => .ok (.num n, rest2)
            | .error e => .error e
          else .error "SyntaxError: unexpected token"

/-- Object members after the opening brace (acc holds parsed members). -/
def parseJsonObjBody : Nat → List (String × JsValue) → List Char →
    Except String (JsValue × List Char)
  | 0, _, _ => .error "SyntaxError: fuel"
  | fuel + 1, acc, cs =>
      match jsonSkipWs cs with
      | [] => .error "SyntaxError: unterminated object"
      | c :: rest =>
          if c.toNat = 125 && acc = [] then .ok (.obj [], rest)
          else
            match
              (if c.toNat = 34 then
                match parseJsonStringBody (fuel + 1) [] rest with
                | .ok (key, rest2) =>
                    (match jsonSkipWs rest2 with
                      | ':' :: rest3 =>
                          (match parseJsonValue fuel rest3 with
                            | .ok (v, rest4) =>
                                Except.ok (insertJsonField acc key v, rest4)
                            | .error e => Except.error e)
                      | _ => Except.error "SyntaxError: expected colon")
                | .error e => Except.error e
              else
                (Except.error "SyntaxError: expected string key" :
                  Except String (List (String × JsValue) × List Char))) with
            | .error e => .error e
            | .ok (acc2, rest4) =>
                match jsonSkipWs rest4 with
                | ',' :: rest5 => parseJsonObjBody fuel acc2 rest5
                | d :: rest5 =>
                    if d.toNat = 125 then .ok (.obj acc2, rest5)
                    else .error "SyntaxError: expected comma or end of object"
                | [] => .error "SyntaxError: unterminated object"

/-- Array elements after the opening bracket. -/
def parseJsonArrBody : Nat → List JsValue → List Char →
    Except String (JsValue × List Char)
  | 0, _, _ => .error "SyntaxError: fuel"
  | fuel + 1, acc, cs =>
      match jsonSkipWs cs with
      | [] => .error "SyntaxError: unterminated array"
      | c :: rest =>
          if c.toNat = 93 && acc = [] then .ok (.arr [], rest)
          else
            match parseJsonValue fuel (c :: rest) with
            | .error e => .error e
            | .ok (v, rest2) =>
                match jsonSkipWs rest2 with
                | ',' :: rest3 => parseJsonArrBody fuel (acc ++ [v]) rest3
                | d :: rest3 =>
                    if d.toNat = 93 then .ok (.arr (acc ++ [v]), rest3)
                    else .error "SyntaxError: expected comma or end of array"
                | [] => .error "SyntaxError: unterminated array"

end

/-- JSON.parse. -/
def jsonParse (s : String) : Except String JsValue :=
  match parseJsonValue (2 * s.length + 2) s.toList with
  | .error e => .error e
  | .ok (v, rest) =>
      if jsonSkipWs rest = [] then .ok v
      else .error "SyntaxError: unexpected trailing characters"

/-!
The textual repair pass of extractBudgetData / extractCTAData
(lines 278-283 and 448-453): five global regex replacements, modelled as
left-to-right non-overlapping scans exactly as the JavaScript regex
engine applies them.
-/

/-- One global replacement of the pattern comma-whitespace*-close by the
closing character alone (fuel-indexed scan; the top-level wrapper allots
more fuel than a scan can consume, since every step consumes at least
one character). -/
def replaceCommaCloseGo (close : Char) : Nat → List Char → List Char
  | 0, cs => cs
  | _ + 1, [] => []
  | fuel + 1, c :: rest =>
      if c = ',' then
        match rest.drop (rest.takeWhile isJsSpace).length with
        | d :: rest2 =>
            if d = close then close :: replaceCommaCloseGo close fuel rest2
            else c :: replaceCommaCloseGo close fuel rest
        | [] => c :: replaceCommaCloseGo close fuel rest
      else c :: replaceCommaCloseGo close fuel rest

def replaceCommaClose (close : Char) (cs : List Char) : List Char :=
  replaceCommaCloseGo close (cs.length + 1) cs

/-- The character class of word characters used by the bare-key regex. -/
def isWordChar (c : Char) : Bool :=
  (48 ≤ c.toNat && c.toNat ≤ 57) || (65 ≤ c.toNat && c.toNat ≤ 90) ||
    (97 ≤ c.toNat && c.toNat ≤ 122) || c = '_'

/-- One global replacement quoting a maximal word run directly followed
by a colon. -/
def quoteBareKeysGo : Nat → List Char → List Char
  | 0, cs => cs
  | _ + 1, [] => []
  | fuel + 1, c :: rest =>
      if isWordChar c then
        let runT := rest.takeWhile isWordChar
        match rest.drop runT.length with
        | d :: rest3 =>
            if d = ':' then
              (Char.ofNat 34 :: c :: runT) ++
                (Char.ofNat 34 :: ':' :: quoteBareKeysGo fuel rest3)
            else (c :: runT) ++ (d :: quoteBareKeysGo fuel rest3)
        | [] => c :: runT
      else c :: quoteBareKeysGo fuel rest

def quoteBareKeys (cs : List Char) : List Char := quoteBareKeysGo (cs.length + 1) cs

/-- One global replacement of two-or-more double quotes by a single
double quote; a lone quote is copied unchanged, so every maximal quote
run collapses to one. -/
def collapseQuotesGo : Nat → List Char → List Char
  | 0, cs => cs
  | _ + 1, [] => []
  | fuel + 1, c :: rest =>
      if c.toNat = 34 then
        c :: collapseQuotesGo fuel (rest.drop (rest.takeWhile (fun d => d.toNat = 34)).length)
      else c :: collapseQuotesGo fuel rest

def collapseQuotes (cs : List Char) : List Char := collapseQuotesGo (cs.length + 1) cs

/-- The repair chain: strip trailing commas before closers, single to
double quotes, quote bare keys, collapse doubled quotes. -/
def repairJson (s : String) : String :=
  let cs := replaceCommaClose (Char.ofNat 125) s.toList
  let cs := replaceCommaClose (Char.ofNat 93) cs
  let cs := cs.map (fun c => if c.toNat = 39 then Char.ofNat 34 else c)
  let cs := quoteBareKeys cs
  let cs := collapseQuotes cs
  String.mk cs

/-!
cleanJsonResponse — both variants.  The OCR variant (mistral-ocr.ts lines
200-211) strips markdown fences, extracts the outermost braced block, and
trims.  The Budget/CTA variant (mistral-budget-cta.ts lines 540-567)
additionally repairs invalid backslash escapes and control characters.
(Its final replacement, a look-around newline rewrite, maps every match
to itself and is omitted as the identity.)
-/

/-- Remove every occurrence of the three-backtick fence, with an optional
json tag and an optional following newline, per the two fence regexes. -/
def stripFencesGo : Nat → List Char → List Char
  | 0, cs => cs
  | _ + 1, [] => []
  | fuel + 1, c :: rest =>
      if c.toNat = 96 then
        match rest with
        | c2 :: c3 :: 'j' :: 's' :: 'o' :: 'n' :: rest2 =>
            if c2.toNat = 96 && c3.toNat = 96 then
              match rest2 with
              | '\n' :: rest3 => stripFencesGo fuel rest3
              | _ => stripFencesGo fuel rest2
            else c :: stripFencesGo fuel rest
        | c2 :: c3 :: rest2 =>
            if c2.toNat = 96 && c3.toNat = 96 then
              match rest2 with
              | '\n' :: rest3 => stripFencesGo fuel rest3
              | _ => stripFencesGo fuel rest2
            else c :: stripFencesGo fuel rest
        | _ => c :: stripFencesGo fuel rest
      else c :: stripFencesGo fuel rest

def stripFences (cs : List Char) : List Char := stripFencesGo (cs.length + 1) cs

/-- The greedy match from the first opening brace to the last closing
brace after it; the input is kept whole when there is no such block. -/
def extractBraced (cs : List Char) : List Char :=
  let lb := Char.ofNat 123
  let rb := Char.ofNat 125
  let pre := cs.takeWhile (fun c => c != lb)
  let fromBrace := cs.drop pre.length
  match fromBrace with
  | [] => cs
  | _ :: _ =>
      let revTail := fromBrace.reverse.takeWhile (fun c => c != rb)
      if revTail.length = fromBrace.length then cs
      else fromBrace.take (fromBrace.length - revTail.length)

/-- Replace invalid backslash escapes (a backslash before a character
outside the nine JSON escape characters) by the bare character; a
backslash before a valid escape character is copied and scanning resumes
at the escape character, as the regex engine does. -/
def fixBadEscapesGo : Nat → List Char → List Char
  | 0, cs => cs
  | _ + 1, [] => []
  | fuel + 1, c :: rest =>
      if c.toNat = 92 then
        match rest with
        | d :: rest2 =>
            if d.toNat = 34 || d.toNat = 92 || d = '/' || d = 'b' || d = 'f' || d = 'n' ||
                d = 'r' || d = 't' || d = 'u' then
              c :: fixBadEscapesGo fuel rest
            else d :: fixBadEscapesGo fuel rest2
        | [] => [c]
      else c :: fixBadEscapesGo fuel rest

def fixBadEscapes (cs : List Char) : List Char := fixBadEscapesGo (cs.length + 1) cs

/-- Replace control characters by spaces, keeping newline, carriage
return and tab. -/
def fixControlChars (cs : List Char) : List Char :=
  cs.map (fun c =>
    if c.toNat ≤ 31 || c.toNat = 127 then
      if c = '\n' || c = '\r' || c = '\t' then c else ' '
    else c)

/-- cleanJsonResponse of mistral-ocr.ts. -/
def cleanJsonResponseOcr (response : String) : String :=
  jsTrim (String.mk (extractBraced (stripFences response.toList)))

/-- cleanJsonResponse of mistral-budget-cta.ts. -/
def cleanJsonResponseBudget (response : String) : String :=
  jsTrim (String.mk (fixControlChars (fixBadEscapes (extractBraced (stripFences response.toList)))))

/-!
Extraction outcomes and the post-response processing of the three
extractors.  rawText in both the success and the catch branch is the
input documentText (the OCR text handed to the extractor), exactly as in
the source.
-/

inductive ExtractMethod where
  | mistral_ocr : ExtractMethod
  | mistral_chat : ExtractMethod
  | error : ExtractMethod
deriving DecidableEq, Repr

structure Outcome where
  method : ExtractMethod
  data : Option JsValue
  rawText : Option String
  error : Option String
deriving DecidableEq

/-- error.message || fallback (an empty message falls back). -/
def errMessageOr (msg fallback : String) : String := if msg = "" then fallback else msg

/-- The body of extractBudgetData after the chat response arrived
(lines 268-322): clean, parse, repair-and-reparse once, build the
record; any exception is caught and reported with rawText set to the
input document text. -/
def budgetFromResponse (documentText resultText : String) : Outcome :=
  let cleaned := cleanJsonResponseBudget resultText
  let parsed :=
    match jsonParse cleaned with
    | .ok v => Except.ok v
    | .error _ => jsonParse (repairJson cleaned)
  match parsed with
  | .error e =>
      ⟨.error, none, some documentText, some (errMessageOr e "Failed to extract budget data")⟩
  | .ok rawData =>
      match buildBudgetData rawData with
      | .ok d => ⟨.mistral_chat, some d, some documentText, none⟩
      | .error e =>
          ⟨.error, none, some documentText, some (errMessageOr e "Failed to extract budget data")⟩

/-- The body of extractCTAData after the chat response arrived
(lines 438-508). -/
def ctaFromResponse (documentText resultText : String) : Outcome :=
  let cleaned := cleanJsonResponseBudget resultText
  let parsed :=
    match jsonParse cleaned with
    | .ok v => Except.ok v
    | .error _ => jsonParse (repairJson cleaned)
  match parsed with
  | .error e =>
      ⟨.error, none, some documentText, some (errMessageOr e "Failed to extract CTA data")⟩
  | .ok rawData =>
      match buildCTAData rawData with
      | .ok d => ⟨.mistral_chat, some d, some documentText, none⟩
      | .error e =>
          ⟨.error, none, some documentText, some (errMessageOr e "Failed to extract CTA data")⟩

/-- The body of extractProtocolData after the chat response arrived
(mistral-ocr.ts lines 146-170): clean, a single strict parse (no repair
pass here), normalize in place. -/
def protocolFromResponse (documentText resultText : String) : Outcome :=
  let cleaned := cleanJsonResponseOcr resultText
  match jsonParse cleaned with
  | .error e =>
      ⟨.error, none, some documentText, some (errMessageOr e "Failed to extract protocol data")⟩
  | .ok rawData =>
      match buildProtocolData rawData with
      | .ok d => ⟨.mistral_chat, some d, some documentText, none⟩
      | .error e =>
          ⟨.error, none, some documentText, some (errMessageOr e "Failed to extract protocol data")⟩

/-!
The four pipeline stages, each parameterised by the configured API key
and by the external transport it would call; the second component of the
result counts how many transport invocations were made.  Each stage
checks the key first and returns the fixed configuration-error outcome
with zero transport calls when it is absent, exactly as the source does
before constructing the client.
-/

structure OcrResult where
  text : String
  error : Option String
deriving DecidableEq, Repr

/-- extractTextWithOCR (mistral-ocr.ts lines 29-89): upload, signed URL,
OCR, best-effort delete, page join, blank-text check. -/
def extractTextWithOCRRun (apiKey : Option String)
    (upload : Unit → Except String String)
    (getSignedUrl : String → Except String String)
    (ocrProcess : String → Except String (List String))
    (deleteFile : String → Except String Unit) : OcrResult × Nat :=
  match apiKey with
  | none => (⟨"", some "MISTRAL_API_KEY not configured"⟩, 0)
  | some _ =>
      match upload () with
      | .error e => (⟨"", some (errMessageOr e "OCR processing failed")⟩, 1)
      | .ok fileId =>
          match getSignedUrl fileId with
          | .error e => (⟨"", some (errMessageOr e "OCR processing failed")⟩, 2)
          | .ok url =>
              match ocrProcess url with
              | .error e => (⟨"", some (errMessageOr e "OCR processing failed")⟩, 3)
              | .ok pages =>
                  let text := String.intercalate "\n\n--- PAGE BREAK ---\n\n" pages
                  let _ := deleteFile fileId
                  if jsTrim text = "" then
                    (⟨"", some "No text extracted from document"⟩, 4)
                  else (⟨text, none⟩, 4)

/-- extractProtocolData (mistral-ocr.ts lines 94-171). -/
def extractProtocolDataRun (apiKey : Option String) (documentText : String)
    (chat : Unit → Except String String) : Outcome × Nat :=
  match apiKey with
  | none => (⟨.error, none, none, some "MISTRAL_API_KEY not configured"⟩, 0)
  | some _ =>
      match chat () with
      | .error e =>
          (⟨.error, none, some documentText,
            some (errMessageOr e "Failed to extract protocol data")⟩, 1)
      | .ok resultText => (protocolFromResponse documentText resultText, 1)

/-- extractBudgetData (mistral-budget-cta.ts lines 163-323). -/
def extractBudgetDataRun (apiKey : Option String) (documentText : String)
    (chat : Unit → Except String String) : Outcome × Nat :=
  match apiKey with
  | none => (⟨.error, none, none, some "MISTRAL_API_KEY not configured"⟩, 0)
  | some _ =>
      match chat () with
      | .error e =>
          (⟨.error, none, some documentText,
            some (errMessageOr e "Failed to extract budget data")⟩, 1)
      | .ok resultText => (budgetFromResponse documentText resultText, 1)

/-- extractCTAData (mistral-budget-cta.ts lines 354-509). -/
def extractCTADataRun (apiKey : Option String) (documentText : String)
    (chat : Unit → Except String String) : Outcome × Nat :=
  match apiKey with
  | none => (⟨.error, none, none, some "MISTRAL_API_KEY not configured"⟩, 0)
  | some _ =>
      match chat () with
      | .error e =>
          (⟨.error, none, some documentText,
            some (errMessageOr e "Failed to extract CTA data")⟩, 1)
      | .ok resultText => (ctaFromResponse documentText resultText, 1)

/-!
Stability predicates: what one JSON round trip preserves of a built
payment item.  A raw record decoded by JSON.parse always satisfies them
unless an amount coerces to Infinity (e.g. from the string "Infinity").
-/

/-- Re-serialising leaves the value unchanged. -/
def jsonFixed (v : JsValue) : Bool := jsonRoundtrip v == v

/-- A carried field of a built item survives one JSON round trip: either
it was defaulted to undefined (then the field is dropped and read back
as undefined) or it is a truthy JSON-stable value. -/
def stableOpt (v : JsValue) : Bool := v == JsValue.undefined || (jsonFixed v && jsTruthy v)

/-- The amount slot holds a finite number within the double range (a
decimal of larger magnitude denotes no JavaScript number at all). -/
def stableAmount (v : JsValue) : Bool :=
  match v with
  | .num (.dec m e) => !(overflowsDouble m e)
  | _ => false

/-- Stability of a built procedure-payment item. -/
def stableProcItem (o : JsValue) : Bool :=
  stableAmount (jget o "payment_amount") &&
    (jsonFixed (jget o "procedure_name") && jsTruthy (jget o "procedure_name")) &&
    (jsonFixed (jget o "currency") && jsTruthy (jget o "currency")) &&
    stableOpt (jget o "visit_associated") && stableOpt (jget o "notes")

/-- The visit_number slot as built: undefined, or a truthy integer small
enough (below 10 ^ 21) that ToString prints it positionally — at 1e21
and above JavaScript prints exponent notation, which parseInt truncates
at the e. -/
def stableVisitNumber (v : JsValue) : Bool :=
  match v with
  | .undefined => true
  | .num (.dec k 0) => k != 0 && decide (k.natAbs < 10 ^ 21)
  | _ => false

/-- Stability of a built visit-payment item. -/
def stableVisitItem (o : JsValue) : Bool :=
  stableAmount (jget o "total_payment") &&
    (jsonFixed (jget o "visit_name") && jsTruthy (jget o "visit_name")) &&
    (jsonFixed (jget o "currency") && jsTruthy (jget o "currency")) &&
    stableVisitNumber (jget o "visit_number") &&
    (match jget o "procedures_included" with
      | .arr xs => jsonFixed (.arr xs)
      | _ => false)

/-- Stability of a built milestone-payment item. -/
def stableMilestoneItem (o : JsValue) : Bool :=
  stableAmount (jget o "payment_amount") &&
    (jsonFixed (jget o "milestone_name") && jsTruthy (jget o "milestone_name")) &&
    (jsonFixed (jget o "currency") && jsTruthy (jget o "currency")) &&
    (jget o "trigger_condition" == JsValue.str "" ||
      (jsonFixed (jget o "trigger_condition") && jsTruthy (jget o "trigger_condition")))

/-- The normalized Budget record produced from the empty raw object
(a concrete evaluation of buildBudgetData, used as witness data). -/
def budgetOutEmpty : JsValue :=
  .obj [
    ("total_budget", .undefined),
    ("currency", .str "USD"),
    ("budget_type", .undefined),
    ("per_patient_total", .undefined),
    ("screen_failure_payment", .undefined),
    ("early_termination_payment", .undefined),
    ("procedure_payments", .arr []),
    ("visit_payments", .arr []),
    ("milestone_payments", .arr []),
    ("startup_costs", .undefined),
    ("annual_maintenance", .undefined),
    ("closeout_costs", .undefined),
    ("payment_terms", .obj []),
    ("pass_through_costs", .arr []),
    ("important_notes", .arr [])]

/-- The normalized CTA record produced from the empty raw object. -/
def ctaOutEmpty : JsValue :=
  .obj [
    ("document_title", .undefined),
    ("agreement_number", .undefined),
    ("sponsor_name", .str "Unknown Sponsor"),
    ("site_name", .undefined),
    ("payment_info", .obj [
      ("payment_method", .undefined),
      ("payment_currency", .str "USD"),
      ("billing_address", .undefined),
      ("payment_contact", .undefined),
      ("tax_requirements", .undefined)]),
    ("references_budget_amendment", .undefined),
    ("timeline", .obj [
      ("agreement_effective_date", .undefined),
      ("study_start_date", .undefined),
      ("estimated_end_date", .undefined),
      ("invoice_submission_deadline", .undefined)]),
    ("invoice_requirements", .arr []),
    ("invoice_submission_method", .undefined),
    ("invoice_submission_address", .undefined),
    ("payment_hold_conditions", .arr []),
    ("audit_requirements", .undefined),
    ("sponsor_contact_name", .undefined),
    ("sponsor_contact_email", .undefined),
    ("financial_contact_name", .undefined),
    ("financial_contact_email", .undefined),
    ("important_notes", .arr [])]

/-!
Helper lemmas.
-/

theorem jsOr_of_truthy {a : JsValue} (b : JsValue) (h : jsTruthy a = true) : jsOr a b = a := by
  simp [jsOr, h]

theorem jsOr_of_falsy {a : JsValue} (b : JsValue) (h : jsTruthy a = false) : jsOr a b = b := by
  simp [jsOr, h]

theorem jsTruthy_jsOr (a b : JsValue) : jsTruthy (jsOr a b) = (jsTruthy a || jsTruthy b) := by
  unfold jsOr
  by_cases h : jsTruthy a = true
  · simp [h]
  · simp [eq_false_of_ne_true h]

theorem getField_ok {v : JsValue} (hn : v ≠ JsValue.null) (hu : v ≠ JsValue.undefined)
    (k : String) : getField v k = .ok (jget v k) := by
  cases v <;> simp_all [getField, jget]

theorem mapExcept_ok_mem {f : JsValue → Except String JsValue} :
    ∀ {l out}, mapExcept f l = .ok out → ∀ y ∈ out, ∃ x ∈ l, f x = .ok y := by
  intro l
  induction l with
  | nil =>
      intro out h y hy
      simp [mapExcept] at h
      subst h
      simp at hy
  | cons x xs ih =>
      intro out h y hy
      rw [mapExcept] at h
      cases hx : f x with
      | error e => rw [hx] at h; exact absurd h (by simp)
      | ok z =>
          rw [hx] at h
          cases hxs : mapExcept f xs with
          | error e => rw [hxs] at h; exact absurd h (by simp)
          | ok zs =>
              rw [hxs] at h
              simp only [Except.ok.injEq] at h
              subst h
              rcases List.mem_cons.mp hy with hy | hy
              · exact ⟨x, List.mem_cons_self x xs, by rw [hx, hy]⟩
              · rcases ih hxs y hy with ⟨w, hw, hfw⟩
                exact ⟨w, List.mem_cons_of_mem x hw, hfw⟩

theorem mapExcept_map_self {f : JsValue → Except String JsValue} {g : JsValue → JsValue} :
    ∀ {l}, (∀ x ∈ l, f (g x) = .ok x) → mapExcept f (l.map g) = .ok l := by
  intro l
  induction l with
  | nil => intro _; simp [mapExcept]
  | cons x xs ih =>
      intro h
      have hx := h x (List.mem_cons_self x xs)
      have hxs := ih (fun y hy => h y (List.mem_cons_of_mem x hy))
      simp only [List.map_cons, mapExcept, hx, hxs]

theorem lookupField_setField_same (fs : List (String × JsValue)) (k : String) (v : JsValue) :
    lookupField (setField fs k v) k = v := by
  induction fs with
  | nil => simp [setField, lookupField]
  | cons p rest ih =>
      obtain ⟨k1, v1⟩ := p
      by_cases h : k1 = k
      · simp [setField, h, lookupField]
      · simp [setField, h, lookupField, ih]

theorem lookupField_setField_ne (fs : List (String × JsValue)) {k k' : String} (v : JsValue)
    (hne : k' ≠ k) : lookupField (setField fs k v) k' = lookupField fs k' := by
  induction fs with
  | nil => simp [setField, lookupField, Ne.symm hne]
  | cons p rest ih =>
      obtain ⟨k1, v1⟩ := p
      by_cases h : k1 = k
      · subst h
        simp [setField, lookupField, Ne.symm hne]
      · simp [setField, h, lookupField, ih]

theorem mapProcItem_ok {item m : JsValue} (h : mapProcItem item = .ok m) :
    m = .obj [
      ("procedure_name", jsOr (jget item "procedure_name") (.str "Unknown Procedure")),
      ("payment_amount", .num (coerceAmount (jget item "payment_amount"))),
      ("currency", jsOr (jget item "currency") (.str "USD")),
      ("per_patient", .bool (jget item "per_patient" != JsValue.bool false)),
      ("visit_associated", jsOrUndef (jget item "visit_associated")),
      ("notes", jsOrUndef (jget item "notes"))] := by
  by_cases hn : item = JsValue.null
  · subst hn; simp [mapProcItem, getField, Bind.bind, Except.bind] at h
  by_cases hu : item = JsValue.undefined
  · subst hu; simp [mapProcItem, getField, Bind.bind, Except.bind] at h
  rw [mapProcItem] at h
  simp only [getField_ok hn hu, Bind.bind, Except.bind, pure, Except.pure,
    Except.ok.injEq] at h
  exact h.symm

theorem mapVisitItem_ok {item m : JsValue} (h : mapVisitItem item = .ok m) :
    m = .obj [
      ("visit_name", jsOr (jget item "visit_name") (.str "Unknown Visit")),
      ("visit_number", coerceVisitNumber (jget item "visit_number")),
      ("total_payment", .num (coerceAmount (jget item "total_payment"))),
      ("currency", jsOr (jget item "currency") (.str "USD")),
      ("procedures_included", ensureIsArray (jget item "procedures_included"))] := by
  by_cases hn : item = JsValue.null
  · subst hn; simp [mapVisitItem, getField, Bind.bind, Except.bind] at h
  by_cases hu : item = JsValue.undefined
  · subst hu; simp [mapVisitItem, getField, Bind.bind, Except.bind] at h
  rw [mapVisitItem] at h
  simp only [getField_ok hn hu, Bind.bind, Except.bind, pure, Except.pure,
    Except.ok.injEq] at h
  exact h.symm

theorem mapMilestoneItem_ok {item m : JsValue} (h : mapMilestoneItem item = .ok m) :
    m = .obj [
      ("milestone_name", jsOr (jget item "milestone_name") (.str "Unknown Milestone")),
      ("payment_amount", .num (coerceAmount (jget item "payment_amount"))),
      ("currency", jsOr (jget item "currency") (.str "USD")),
      ("trigger_condition", jsOr (jget item "trigger_condition") (.str ""))] := by
  by_cases hn : item = JsValue.null
  · subst hn; simp [mapMilestoneItem, getField, Bind.bind, Except.bind] at h
  by_cases hu : item = JsValue.undefined
  · subst hu; simp [mapMilestoneItem, getField, Bind.bind, Except.bind] at h
  rw [mapMilestoneItem] at h
  simp only [getField_ok hn hu, Bind.bind, Except.bind, pure, Except.pure,
    Except.ok.injEq] at h
  exact h.symm

/-- Inversion for ensureProcedurePayments: every retained item passed the
filter and came from the mapper. -/
theorem ensureProc_outs {v : JsValue} {outs : List JsValue}
    (h : ensureProcedurePayments v = .ok (.arr outs)) :
    ∀ o ∈ outs, keepProc o = true ∧ ∃ item, mapProcItem item = .ok o := by
  cases v with
  | arr items =>
      rw [ensureProcedurePayments] at h
      cases hm : mapExcept mapProcItem items with
      | error e => rw [hm] at h; exact absurd h (by simp)
      | ok mapped =>
          rw [hm] at h
          simp only [Except.ok.injEq, JsValue.arr.injEq] at h
          subst h
          intro o ho
          have hmem := List.mem_filter.mp ho
          rcases mapExcept_ok_mem hm o hmem.1 with ⟨item, _, hitem⟩
          exact ⟨hmem.2, item, hitem⟩
  | null =>
      simp only [ensureProcedurePayments, Except.ok.injEq, JsValue.arr.injEq] at h
      subst h
      intro o ho
      simp at ho
  | undefined =>
      simp only [ensureProcedurePayments, Except.ok.injEq, JsValue.arr.injEq] at h
      subst h
      intro o ho
      simp at ho
  | bool b =>
      simp only [ensureProcedurePayments, Except.ok.injEq, JsValue.arr.injEq] at h
      subst h
      intro o ho
      simp at ho
  | num n =>
      simp only [ensureProcedurePayments, Except.ok.injEq, JsValue.arr.injEq] at h
      subst h
      intro o ho
      simp at ho
  | str s =>
      simp only [ensureProcedurePayments, Except.ok.injEq, JsValue.arr.injEq] at h
      subst h
      intro o ho
      simp at ho
  | obj fs =>
      simp only [ensureProcedurePayments, Except.ok.injEq, JsValue.arr.injEq] at h
      subst h
      intro o ho
      simp at ho

theorem ensureVisit_outs {v : JsValue} {outs : List JsValue}
    (h : ensureVisitPayments v = .ok (.arr outs)) :
    ∀ o ∈ outs, keepVisit o = true ∧ ∃ item, mapVisitItem item = .ok o := by
  cases v with
  | arr items =>
      rw [ensureVisitPayments] at h
      cases hm : mapExcept mapVisitItem items with
      | error e => rw [hm] at h; exact absurd h (by simp)
      | ok mapped =>
          rw [hm] at h
          simp only [Except.ok.injEq, JsValue.arr.injEq] at h
          subst h
          intro o ho
          have hmem := List.mem_filter.mp ho
          rcases mapExcept_ok_mem hm o hmem.1 with ⟨item, _, hitem⟩
          exact ⟨hmem.2, item, hitem⟩
  | null =>
      simp only [ensureVisitPayments, Except.ok.injEq, JsValue.arr.injEq] at h
      subst h
      intro o ho
      simp at ho
  | undefined =>
      simp only [ensureVisitPayments, Except.ok.injEq, JsValue.arr.injEq] at h
      subst h
      intro o ho
      simp at ho
  | bool b =>
      simp only [ensureVisitPayments, Except.ok.injEq, JsValue.arr.injEq] at h
      subst h
      intro o ho
      simp at ho
  | num n =>
      simp only [ensureVisitPayments, Except.ok.injEq, JsValue.arr.injEq] at h
      subst h
      intro o ho
      simp at ho
  | str s =>
      simp only [ensureVisitPayments, Except.ok.injEq, JsValue.arr.injEq] at h
      subst h
      intro o ho
      simp at ho
  | obj fs =>
      simp only [ensureVisitPayments, Except.ok.injEq, JsValue.arr.injEq] at h
      subst h
      intro o ho
      simp at ho

theorem ensureMilestone_outs {v : JsValue} {outs : List JsValue}
    (h : ensureMilestonePayments v = .ok (.arr outs)) :
    ∀ o ∈ outs, keepMilestone o = true ∧ ∃ item, mapMilestoneItem item = .ok o := by
  cases v with
  | arr items =>
      rw [ensureMilestonePayments] at h
      cases hm : mapExcept mapMilestoneItem items with
      | error e => rw [hm] at h; exact absurd h (by simp)
      | ok mapped =>
          rw [hm] at h
          simp only [Except.ok.injEq, JsValue.arr.injEq] at h
          subst h
          intro o ho
          have hmem := List.mem_filter.mp ho
          rcases mapExcept_ok_mem hm o hmem.1 with ⟨item, _, hitem⟩
          exact ⟨hmem.2, item, hitem⟩
  | null =>
      simp only [ensureMilestonePayments, Except.ok.injEq, JsValue.arr.injEq] at h
      subst h
      intro o ho
      simp at ho
  | undefined =>
      simp only [ensureMilestonePayments, Except.ok.injEq, JsValue.arr.injEq] at h
      subst h
      intro o ho
      simp at ho
  | bool b =>
      simp only [ensureMilestonePayments, Except.ok.injEq, JsValue.arr.injEq] at h
      subst h
      intro o ho
      simp at ho
  | num n =>
      simp only [ensureMilestonePayments, Except.ok.injEq, JsValue.arr.injEq] at h
      subst h
      intro o ho
      simp at ho
  | str s =>
      simp only [ensureMilestonePayments, Except.ok.injEq, JsValue.arr.injEq] at h
      subst h
      intro o ho
      simp at ho
  | obj fs =>
      simp only [ensureMilestonePayments, Except.ok.injEq, JsValue.arr.injEq] at h
      subst h
      intro o ho
      simp at ho

/-- Inversion for buildBudgetData: the three payment normalizers all
succeeded and the output is the literal record over the raw reads. -/
theorem buildBudgetData_ok {r out : JsValue} (h : buildBudgetData r = .ok out) :
    ∃ pp vp mp,
      ensureProcedurePayments (jget r "procedure_payments") = .ok pp ∧
      ensureVisitPayments (jget r "visit_payments") = .ok vp ∧
      ensureMilestonePayments (jget r "milestone_payments") = .ok mp ∧
      out = .obj [
        ("total_budget", jsOrUndef (jget r "total_budget")),
        ("currency", jsOr (jget r "currency") (.str "USD")),
        ("budget_type", jsOrUndef (jget r "budget_type")),
        ("per_patient_total", jsOrUndef (jget r "per_patient_total")),
        ("screen_failure_payment", jsOrUndef (jget r "screen_failure_payment")),
        ("early_termination_payment", jsOrUndef (jget r "early_termination_payment")),
        ("procedure_payments", pp),
        ("visit_payments", vp),
        ("milestone_payments", mp),
        ("startup_costs", jsOrUndef (jget r "startup_costs")),
        ("annual_maintenance", jsOrUndef (jget r "annual_maintenance")),
        ("closeout_costs", jsOrUndef (jget r "closeout_costs")),
        ("payment_terms", jsOr (jget r "payment_terms") (.obj [])),
        ("pass_through_costs", ensureIsArray (jget r "pass_through_costs")),
        ("important_notes", ensureIsArray (jget r "important_notes"))] := by
  by_cases hn : r = JsValue.null
  · subst hn; simp [buildBudgetData, getField, Bind.bind, Except.bind] at h
  by_cases hu : r = JsValue.undefined
  · subst hu; simp [buildBudgetData, getField, Bind.bind, Except.bind] at h
  rw [buildBudgetData] at h
  simp only [getField_ok hn hu, Bind.bind, Except.bind] at h
  cases hp : ensureProcedurePayments (jget r "procedure_payments") with
  | error e => rw [hp] at h; exact absurd h (by simp)
  | ok pp =>
      rw [hp] at h
      cases hv : ensureVisitPayments (jget r "visit_payments") with
      | error e => rw [hv] at h; exact absurd h (by simp)
      | ok vp =>
          rw [hv] at h
          cases hm : ensureMilestonePayments (jget r "milestone_payments") with
          | error e => rw [hm] at h; exact absurd h (by simp)
          | ok mp =>
              rw [hm] at h
              simp only [pure, Except.pure, Except.ok.injEq] at h
              exact ⟨pp, vp, mp, rfl, rfl, rfl, h.symm⟩

/-- Inversion for buildCTAData: the output is the literal record over
the raw reads (no sub-step of this builder can fail once the base object
reads succeed). -/
theorem buildCTAData_ok {r out : JsValue} (h : buildCTAData r = .ok out) :
    out = .obj [
      ("document_title", jsOrUndef (jget r "document_title")),
      ("agreement_number", jsOrUndef (jget r "agreement_number")),
      ("sponsor_name", jsOr (jget r "sponsor_name") (.str "Unknown Sponsor")),
      ("site_name", jsOrUndef (jget r "site_name")),
      ("payment_info", .obj [
        ("payment_method", jsOrUndef (getFieldOpt (jget r "payment_info") "payment_method")),
        ("payment_currency",
          jsOr (getFieldOpt (jget r "payment_info") "payment_currency") (.str "USD")),
        ("billing_address", jsOrUndef (getFieldOpt (jget r "payment_info") "billing_address")),
        ("payment_contact", jsOrUndef (getFieldOpt (jget r "payment_info") "payment_contact")),
        ("tax_requirements",
          jsOrUndef (getFieldOpt (jget r "payment_info") "tax_requirements"))]),
      ("references_budget_amendment",
        (match jget r "references_budget_amendment" with
          | .str s => .str s
          | _ => .undefined)),
      ("timeline", .obj [
        ("agreement_effective_date",
          jsOrUndef (getFieldOpt (jget r "timeline") "agreement_effective_date")),
        ("study_start_date", jsOrUndef (getFieldOpt (jget r "timeline") "study_start_date")),
        ("estimated_end_date", jsOrUndef (getFieldOpt (jget r "timeline") "estimated_end_date")),
        ("invoice_submission_deadline",
          jsOrUndef (getFieldOpt (jget r "timeline") "invoice_submission_deadline"))]),
      ("invoice_requirements", ensureIsArray (jget r "invoice_requirements")),
      ("invoice_submission_method", jsOrUndef (jget r "invoice_submission_method")),
      ("invoice_submission_address", jsOrUndef (jget r "invoice_submission_address")),
      ("payment_hold_conditions", ensureIsArray (jget r "payment_hold_conditions")),
      ("audit_requirements", jsOrUndef (jget r "audit_requirements")),
      ("sponsor_contact_name", jsOrUndef (jget r "sponsor_contact_name")),
      ("sponsor_contact_email", jsOrUndef (jget r "sponsor_contact_email")),
      ("financial_contact_name", jsOrUndef (jget r "financial_contact_name")),
      ("financial_contact_email", jsOrUndef (jget r "financial_contact_email")),
      ("important_notes", ensureIsArray (jget r "important_notes"))] := by
  by_cases hn : r = JsValue.null
  · subst hn; simp [buildCTAData, getField, Bind.bind, Except.bind] at h
  by_cases hu : r = JsValue.undefined
  · subst hu; simp [buildCTAData, getField, Bind.bind, Except.bind] at h
  rw [buildCTAData] at h
  simp only [getField_ok hn hu, Bind.bind, Except.bind, pure, Except.pure,
    Except.ok.injEq] at h
  exact h.symm

/-- Inversion for buildProtocolData. -/
theorem buildProtocolData_ok {d out : JsValue} (h : buildProtocolData d = .ok out) :
    ∃ fs, asPropBase d = .ok fs ∧
      out = .obj (setField
        (setField
          (setField
            (setField fs "inclusion_criteria" (ensureArray (lookupField fs "inclusion_criteria")))
            "exclusion_criteria"
            (ensureArray (lookupField
              (setField fs "inclusion_criteria"
                (ensureArray (lookupField fs "inclusion_criteria")))
              "exclusion_criteria")))
          "visit_schedule"
          (ensureArray (lookupField
            (setField
              (setField fs "inclusion_criteria"
                (ensureArray (lookupField fs "inclusion_criteria")))
              "exclusion_criteria"
              (ensureArray (lookupField
                (setField fs "inclusion_criteria"
                  (ensureArray (lookupField fs "inclusion_criteria")))
                "exclusion_criteria")))
            "visit_schedule")))
        "target_enrollment"
        (.num (coerceEnrollment (lookupField
          (setField
            (setField
              (setField fs "inclusion_criteria"
                (ensureArray (lookupField fs "inclusion_criteria")))
              "exclusion_criteria"
              (ensureArray (lookupField
                (setField fs "inclusion_criteria"
                  (ensureArray (lookupField fs "inclusion_criteria")))
                "exclusion_criteria")))
            "visit_schedule"
            (ensureArray (lookupField
              (setField
                (setField fs "inclusion_criteria"
                  (ensureArray (lookupField fs "inclusion_criteria")))
                "exclusion_criteria"
                (ensureArray (lookupField
                  (setField fs "inclusion_criteria"
                    (ensureArray (lookupField fs "inclusion_criteria")))
                  "exclusion_criteria")))
              "visit_schedule")))
          "target_enrollment")))) := by
  cases hb : asPropBase d with
  | error e =>
      rw [buildProtocolData] at h
      rw [hb] at h
      exact absurd h (by simp [Bind.bind, Except.bind])
  | ok fs =>
      rw [buildProtocolData] at h
      rw [hb] at h
      simp only [Bind.bind, Except.bind, pure, Except.pure, Except.ok.injEq] at h
      exact ⟨fs, rfl, h.symm⟩

theorem isArr_ensureArray (v : JsValue) : isArr (ensureArray v) = true := by
  cases v <;> first
    | rfl
    | (rw [ensureArray]; split
       · split <;> rfl
       · rfl)

theorem isArr_ensureIsArray (v : JsValue) : isArr (ensureIsArray v) = true := by
  cases v <;> rfl

theorem ensureProc_ok_isArr {v w : JsValue} (h : ensureProcedurePayments v = .ok w) :
    isArr w = true := by
  cases v with
  | arr items =>
      rw [ensureProcedurePayments] at h
      cases hm : mapExcept mapProcItem items with
      | error e => rw [hm] at h; exact absurd h (by simp)
      | ok mapped =>
          rw [hm] at h
          simp only [Except.ok.injEq] at h
          subst h
          rfl
  | null => simp only [ensureProcedurePayments, Except.ok.injEq] at h; subst h; rfl
  | undefined => simp only [ensureProcedurePayments, Except.ok.injEq] at h; subst h; rfl
  | bool b => simp only [ensureProcedurePayments, Except.ok.injEq] at h; subst h; rfl
  | num n => simp only [ensureProcedurePayments, Except.ok.injEq] at h; subst h; rfl
  | str s => simp only [ensureProcedurePayments, Except.ok.injEq] at h; subst h; rfl
  | obj fs => simp only [ensureProcedurePayments, Except.ok.injEq] at h; subst h; rfl

theorem ensureVisit_ok_isArr {v w : JsValue} (h : ensureVisitPayments v = .ok w) :
    isArr w = true := by
  cases v with
  | arr items =>
      rw [ensureVisitPayments] at h
      cases hm : mapExcept mapVisitItem items with
      | error e => rw [hm] at h; exact absurd h (by simp)
      | ok mapped =>
          rw [hm] at h
          simp only [Except.ok.injEq] at h
          subst h
          rfl
  | null => simp only [ensureVisitPayments, Except.ok.injEq] at h; subst h; rfl
  | undefined => simp only [ensureVisitPayments, Except.ok.injEq] at h; subst h; rfl
  | bool b => simp only [ensureVisitPayments, Except.ok.injEq] at h; subst h; rfl
  | num n => simp only [ensureVisitPayments, Except.ok.injEq] at h; subst h; rfl
  | str s => simp only [ensureVisitPayments, Except.ok.injEq] at h; subst h; rfl
  | obj fs => simp only [ensureVisitPayments, Except.ok.injEq] at h; subst h; rfl

theorem ensureMilestone_ok_isArr {v w : JsValue} (h : ensureMilestonePayments v = .ok w) :
    isArr w = true := by
  cases v with
  | arr items =>
      rw [ensureMilestonePayments] at h
      cases hm : mapExcept mapMilestoneItem items with
      | error e => rw [hm] at h; exact absurd h (by simp)
      | ok mapped =>
          rw [hm] at h
          simp only [Except.ok.injEq] at h
          subst h
          rfl
  | null => simp only [ensureMilestonePayments, Except.ok.injEq] at h; subst h; rfl
  | undefined => simp only [ensureMilestonePayments, Except.ok.injEq] at h; subst h; rfl
  | bool b => simp only [ensureMilestonePayments, Except.ok.injEq] at h; subst h; rfl
  | num n => simp only [ensureMilestonePayments, Except.ok.injEq] at h; subst h; rfl
  | str s => simp only [ensureMilestonePayments, Except.ok.injEq] at h; subst h; rfl
  | obj fs => simp only [ensureMilestonePayments, Except.ok.injEq] at h; subst h; rfl

/-!
Claim theorems.
-/

/-- C5: with no configured API key, each of the four pipeline stages
(OCR text extraction, protocol field extraction, budget extraction, CTA
extraction) returns the fixed configuration-error outcome and performs
zero transport invocations. -/
theorem missing_key_fail_fast :
    ∀ (documentText : String) (upload : Unit → Except String String)
      (getSignedUrl : String → Except String String)
      (ocrProcess : String → Except String (List String))
      (deleteFile : String → Except String Unit)
      (chat : Unit → Except String String),
      extractTextWithOCRRun none upload getSignedUrl ocrProcess deleteFile =
        (⟨"", some "MISTRAL_API_KEY not configured"⟩, 0) ∧
      extractProtocolDataRun none documentText chat =
        (⟨.error, none, none, some "MISTRAL_API_KEY not configured"⟩, 0) ∧
      extractBudgetDataRun none documentText chat =
        (⟨.error, none, none, some "MISTRAL_API_KEY not configured"⟩, 0) ∧
      extractCTADataRun none documentText chat =
        (⟨.error, none, none, some "MISTRAL_API_KEY not configured"⟩, 0) := by
  intro _ _ _ _ _ _
  exact ⟨rfl, rfl, rfl, rfl⟩

/-- C1 (amended): every item retained by a Budget payment normalizer has
a truthy name and a strictly positive amount, and any item whose amount
is not positive is absent from the output; but a raw item with a missing
or empty name is retained under the defaulted name (the name test never
drops an item, since the mapper defaults the name to a non-empty string
before the filter runs). -/
theorem budget_payment_filter_spec :
    (∀ v outs, ensureProcedurePayments v = .ok (.arr outs) →
      (∀ o ∈ outs, jsTruthy (jget o "procedure_name") = true ∧
        amountGtZero o "payment_amount" = true) ∧
      (∀ m, amountGtZero m "payment_amount" = false → m ∉ outs)) ∧
    (∀ v outs, ensureVisitPayments v = .ok (.arr outs) →
      (∀ o ∈ outs, jsTruthy (jget o "visit_name") = true ∧
        amountGtZero o "total_payment" = true) ∧
      (∀ m, amountGtZero m "total_payment" = false → m ∉ outs)) ∧
    (∀ v outs, ensureMilestonePayments v = .ok (.arr outs) →
      (∀ o ∈ outs, jsTruthy (jget o "milestone_name") = true ∧
        amountGtZero o "payment_amount" = true) ∧
      (∀ m, amountGtZero m "payment_amount" = false → m ∉ outs)) ∧
    (∀ item m, mapProcItem item = .ok m → jsTruthy (jget m "procedure_name") = true) ∧
    (∀ item m, mapVisitItem item = .ok m → jsTruthy (jget m "visit_name") = true) ∧
    (∀ item m, mapMilestoneItem item = .ok m → jsTruthy (jget m "milestone_name") = true) := by
  refine ⟨?_, ?_, ?_, ?_, ?_, ?_⟩
  · intro v outs h
    have hi := ensureProc_outs h
    refine ⟨?_, ?_⟩
    · intro o ho
      have hk := (hi o ho).1
      simp only [keepProc, Bool.and_eq_true] at hk
      exact hk
    · intro m hm hmem
      have hk := (hi m hmem).1
      simp only [keepProc, Bool.and_eq_true] at hk
      rw [hk.2] at hm
      exact Bool.true_eq_false.mp hm
  · intro v outs h
    have hi := ensureVisit_outs h
    refine ⟨?_, ?_⟩
    · intro o ho
      have hk := (hi o ho).1
      simp only [keepVisit, Bool.and_eq_true] at hk
      exact hk
    · intro m hm hmem
      have hk := (hi m hmem).1
      simp only [keepVisit, Bool.and_eq_true] at hk
      rw [hk.2] at hm
      exact Bool.true_eq_false.mp hm
  · intro v outs h
    have hi := ensureMilestone_outs h
    refine ⟨?_, ?_⟩
    · intro o ho
      have hk := (hi o ho).1
      simp only [keepMilestone, Bool.and_eq_true] at hk
      exact hk
    · intro m hm hmem
      have hk := (hi m hmem).1
      simp only [keepMilestone, Bool.and_eq_true] at hk
      rw [hk.2] at hm
      exact Bool.true_eq_false.mp hm
  · intro item m h
    rw [mapProcItem_ok h]
    have hd : jsTruthy (JsValue.str "Unknown Procedure") = true := by decide
    simp [jget, lookupField, jsTruthy_jsOr, hd]
  · intro item m h
    rw [mapVisitItem_ok h]
    have hd : jsTruthy (JsValue.str "Unknown Visit") = true := by decide
    simp [jget, lookupField, jsTruthy_jsOr, hd]
  · intro item m h
    rw [mapMilestoneItem_ok h]
    have hd : jsTruthy (JsValue.str "Unknown Milestone") = true := by decide
    simp [jget, lookupField, jsTruthy_jsOr, hd]

theorem budget_payment_filter_spec_witness :
    (∀ o ∈ [JsValue.obj [
        ("procedure_name", .str "ECG"),
        ("payment_amount", .num (.dec 5 0)),
        ("currency", .str "USD"),
        ("per_patient", .bool true),
        ("visit_associated", .undefined),
        ("notes", .undefined)]],
      jsTruthy (jget o "procedure_name") = true ∧
        amountGtZero o "payment_amount" = true) ∧
    (∀ m, amountGtZero m "payment_amount" = false →
      m ∉ [JsValue.obj [
        ("procedure_name", .str "ECG"),
        ("payment_amount", .num (.dec 5 0)),
        ("currency", .str "USD"),
        ("per_patient", .bool true),
        ("visit_associated", .undefined),
        ("notes", .undefined)]]) :=
  budget_payment_filter_spec.1
    (.arr [.obj [("procedure_name", .str "ECG"), ("payment_amount", .num (.dec 5 0))]])
    _ (by decide)

/-- C1 counterexample: a raw procedure payment carrying a positive amount
but no name at all is retained in the output (under the defaulted name
"Unknown Procedure"), while the claim asserts that any raw item with a
missing name is absent from the output. -/
theorem budget_payment_filter_cx :
    ensureProcedurePayments (.arr [.obj [("payment_amount", .num (.dec 5 0))]]) =
      .ok (.arr [.obj [
        ("procedure_name", .str "Unknown Procedure"),
        ("payment_amount", .num (.dec 5 0)),
        ("currency", .str "USD"),
        ("per_patient", .bool true),
        ("visit_associated", .undefined),
        ("notes", .undefined)]]) ∧
    JsValue.arr [JsValue.obj [
        ("procedure_name", .str "Unknown Procedure"),
        ("payment_amount", .num (.dec 5 0)),
        ("currency", .str "USD"),
        ("per_patient", .bool true),
        ("visit_associated", .undefined),
        ("notes", .undefined)]] ≠ .arr [] := by
  exact ⟨by decide, by decide⟩

/-- C10: the per_patient flag of a mapped (and hence of every retained)
procedure payment is the strict comparison raw !== false: it is false
exactly when the raw per_patient field is the boolean false, and true for
every other raw value (missing, null, 0, the string "false", ...). -/
theorem per_patient_strict_false :
    (∀ item m, mapProcItem item = .ok m →
      jget m "per_patient" = .bool (jget item "per_patient" != JsValue.bool false)) ∧
    (∀ v outs, ensureProcedurePayments v = .ok (.arr outs) → ∀ o ∈ outs,
      ∃ item, mapProcItem item = .ok o ∧
        jget o "per_patient" = .bool (jget item "per_patient" != JsValue.bool false)) := by
  have h1 : ∀ item m, mapProcItem item = .ok m →
      jget m "per_patient" = .bool (jget item "per_patient" != JsValue.bool false) := by
    intro item m h
    rw [mapProcItem_ok h]
    simp [jget, lookupField]
  refine ⟨h1, ?_⟩
  intro v outs h o ho
  rcases ensureProc_outs h o ho with ⟨_, item, hitem⟩
  exact ⟨item, hitem, h1 item o hitem⟩

theorem per_patient_strict_false_witness :
    jget (JsValue.obj [
      ("procedure_name", .str "X"),
      ("payment_amount", .num (.dec 1 0)),
      ("currency", .str "USD"),
      ("per_patient", .bool true),
      ("visit_associated", .undefined),
      ("notes", .undefined)]) "per_patient" =
      .bool (jget (JsValue.obj [
        ("procedure_name", .str "X"),
        ("payment_amount", .num (.dec 1 0)),
        ("per_patient", .num (.dec 0 0))]) "per_patient" != JsValue.bool false) :=
  per_patient_strict_false.1
    (.obj [
      ("procedure_name", .str "X"),
      ("payment_amount", .num (.dec 1 0)),
      ("per_patient", .num (.dec 0 0))])
    _ (by decide)

/-- C2: for every raw input on which normalization succeeds, every
declared array field of the resulting record is an array: the three
criteria/schedule fields of a protocol record, the five list fields of a
budget record, and the three list fields of a CTA record. -/
theorem normalized_array_fields_total :
    (∀ d out, buildProtocolData d = .ok out →
      isArr (jget out "inclusion_criteria") = true ∧
      isArr (jget out "exclusion_criteria") = true ∧
      isArr (jget out "visit_schedule") = true) ∧
    (∀ r out, buildBudgetData r = .ok out →
      isArr (jget out "procedure_payments") = true ∧
      isArr (jget out "visit_payments") = true ∧
      isArr (jget out "milestone_payments") = true ∧
      isArr (jget out "pass_through_costs") = true ∧
      isArr (jget out "important_notes") = true) ∧
    (∀ r out, buildCTAData r = .ok out →
      isArr (jget out "invoice_requirements") = true ∧
      isArr (jget out "payment_hold_conditions") = true ∧
      isArr (jget out "important_notes") = true) := by
  refine ⟨?_, ?_, ?_⟩
  · intro d out h
    rcases buildProtocolData_ok h with ⟨fs, _, hout⟩
    subst hout
    simp only [jget]
    refine ⟨?_, ?_, ?_⟩
    · rw [lookupField_setField_ne _ _ (by decide), lookupField_setField_ne _ _ (by decide),
        lookupField_setField_ne _ _ (by decide), lookupField_setField_same]
      exact isArr_ensureArray _
    · rw [lookupField_setField_ne _ _ (by decide), lookupField_setField_ne _ _ (by decide),
        lookupField_setField_same]
      exact isArr_ensureArray _
    · rw [lookupField_setField_ne _ _ (by decide), lookupField_setField_same]
      exact isArr_ensureArray _
  · intro r out h
    rcases buildBudgetData_ok h with ⟨pp, vp, mp, hp, hv, hm, hout⟩
    subst hout
    simp only [jget, lookupField]
    norm_num
    exact ⟨ensureProc_ok_isArr hp, ensureVisit_ok_isArr hv, ensureMilestone_ok_isArr hm,
      isArr_ensureIsArray _, isArr_ensureIsArray _⟩
  · intro r out h
    rw [buildCTAData_ok h]
    simp only [jget, lookupField]
    norm_num
    exact ⟨isArr_ensureIsArray _, isArr_ensureIsArray _, isArr_ensureIsArray _⟩

theorem normalized_array_fields_total_witness :
    (isArr (jget (JsValue.obj [
        ("inclusion_criteria", .arr []),
        ("exclusion_criteria", .arr []),
        ("visit_schedule", .arr []),
        ("target_enrollment", .num (.dec 0 0))]) "inclusion_criteria") = true ∧
      isArr (jget (JsValue.obj [
        ("inclusion_criteria", .arr []),
        ("exclusion_criteria", .arr []),
        ("visit_schedule", .arr []),
        ("target_enrollment", .num (.dec 0 0))]) "exclusion_criteria") = true ∧
      isArr (jget (JsValue.obj [
        ("inclusion_criteria", .arr []),
        ("exclusion_criteria", .arr []),
        ("visit_schedule", .arr []),
        ("target_enrollment", .num (.dec 0 0))]) "visit_schedule") = true) ∧
    (isArr (jget budgetOutEmpty "procedure_payments") = true ∧
      isArr (jget budgetOutEmpty "visit_payments") = true ∧
      isArr (jget budgetOutEmpty "milestone_payments") = true ∧
      isArr (jget budgetOutEmpty "pass_through_costs") = true ∧
      isArr (jget budgetOutEmpty "important_notes") = true) ∧
    (isArr (jget ctaOutEmpty "invoice_requirements") = true ∧
      isArr (jget ctaOutEmpty "payment_hold_conditions") = true ∧
      isArr (jget ctaOutEmpty "important_notes") = true) :=
  ⟨normalized_array_fields_total.1 (.obj []) _ (by decide),
   normalized_array_fields_total.2.1 (.obj []) budgetOutEmpty (by decide),
   normalized_array_fields_total.2.2 (.obj []) ctaOutEmpty (by decide)⟩

/-- C7: whenever the raw currency slot is falsy (absent, empty, null),
the normalized value is "USD": the top-level Budget currency, the
per-item currency of procedure / visit / milestone payments, and the CTA
payment_info.payment_currency. -/
theorem currency_default_usd :
    (∀ r out, buildBudgetData r = .ok out → jsTruthy (jget r "currency") = false →
      jget out "currency" = .str "USD") ∧
    (∀ item m, mapProcItem item = .ok m → jsTruthy (jget item "currency") = false →
      jget m "currency" = .str "USD") ∧
    (∀ item m, mapVisitItem item = .ok m → jsTruthy (jget item "currency") = false →
      jget m "currency" = .str "USD") ∧
    (∀ item m, mapMilestoneItem item = .ok m → jsTruthy (jget item "currency") = false →
      jget m "currency" = .str "USD") ∧
    (∀ r out, buildCTAData r = .ok out →
      jsTruthy (getFieldOpt (jget r "payment_info") "payment_currency") = false →
      jget (jget out "payment_info") "payment_currency" = .str "USD") := by
  refine ⟨?_, ?_, ?_, ?_, ?_⟩
  · intro r out h hc
    rcases buildBudgetData_ok h with ⟨pp, vp, mp, _, _, _, hout⟩
    subst hout
    simp only [jget, lookupField]
    norm_num
    exact jsOr_of_falsy _ hc
  · intro item m h hc
    rw [mapProcItem_ok h]
    simp only [jget, lookupField]
    norm_num
    exact jsOr_of_falsy _ hc
  · intro item m h hc
    rw [mapVisitItem_ok h]
    simp only [jget, lookupField]
    norm_num
    exact jsOr_of_falsy _ hc
  · intro item m h hc
    rw [mapMilestoneItem_ok h]
    simp only [jget, lookupField]
    norm_num
    exact jsOr_of_falsy _ hc
  · intro r out h hc
    rw [buildCTAData_ok h]
    simp only [jget, lookupField]
    norm_num
    exact jsOr_of_falsy _ hc

theorem currency_default_usd_witness :
    jget budgetOutEmpty "currency" = .str "USD" ∧
    jget (jget ctaOutEmpty "payment_info") "payment_currency" = .str "USD" :=
  ⟨currency_default_usd.1 (.obj []) budgetOutEmpty (by decide) (by decide),
   currency_default_usd.2.2.2.2 (.obj []) ctaOutEmpty (by decide) (by decide)⟩

/-- C9 (amended): the normalized sponsor_name is always truthy — never
undefined, null, or the empty string; when the raw sponsor_name is falsy
it is the literal "Unknown Sponsor", and when it is truthy it is the raw
value unchanged (which is therefore a non-empty string whenever the raw
value was a string, but is not converted to a string otherwise). -/
theorem sponsor_name_default :
    ∀ r out, buildCTAData r = .ok out →
      jsTruthy (jget out "sponsor_name") = true ∧
      (jsTruthy (jget r "sponsor_name") = false →
        jget out "sponsor_name" = .str "Unknown Sponsor") ∧
      (jsTruthy (jget r "sponsor_name") = true →
        jget out "sponsor_name" = jget r "sponsor_name") := by
  intro r out h
  rw [buildCTAData_ok h]
  simp only [jget, lookupField, String.reduceEq, reduceIte]
  have hd : jsTruthy (JsValue.str "Unknown Sponsor") = true := by decide
  refine ⟨?_, ?_, ?_⟩
  · rw [jsTruthy_jsOr, hd, Bool.or_true]
  · intro hc
    exact jsOr_of_falsy _ hc
  · intro hc
    exact jsOr_of_truthy _ hc

theorem sponsor_name_default_witness :
    jsTruthy (jget ctaOutEmpty "sponsor_name") = true ∧
    (jsTruthy (jget (JsValue.obj []) "sponsor_name") = false →
      jget ctaOutEmpty "sponsor_name" = .str "Unknown Sponsor") ∧
    (jsTruthy (jget (JsValue.obj []) "sponsor_name") = true →
      jget ctaOutEmpty "sponsor_name" = jget (JsValue.obj []) "sponsor_name") :=
  sponsor_name_default (.obj []) ctaOutEmpty (by decide)

/-- C9 counterexample: a truthy non-string raw sponsor_name (the number
7) is carried into the normalized record unchanged, so the normalized
sponsor_name is not a string, while the claim asserts it is always a
non-empty string. -/
theorem sponsor_name_cx :
    buildCTAData (.obj [("sponsor_name", .num (.dec 7 0))]) =
      .ok (.obj [
        ("document_title", .undefined),
        ("agreement_number", .undefined),
        ("sponsor_name", .num (.dec 7 0)),
        ("site_name", .undefined),
        ("payment_info", .obj [
          ("payment_method", .undefined),
          ("payment_currency", .str "USD"),
          ("billing_address", .undefined),
          ("payment_contact", .undefined),
          ("tax_requirements", .undefined)]),
        ("references_budget_amendment", .undefined),
        ("timeline", .obj [
          ("agreement_effective_date", .undefined),
          ("study_start_date", .undefined),
          ("estimated_end_date", .undefined),
          ("invoice_submission_deadline", .undefined)]),
        ("invoice_requirements", .arr []),
        ("invoice_submission_method", .undefined),
        ("invoice_submission_address", .undefined),
        ("payment_hold_conditions", .arr []),
        ("audit_requirements", .undefined),
        ("sponsor_contact_name", .undefined),
        ("sponsor_contact_email", .undefined),
        ("financial_contact_name", .undefined),
        ("financial_contact_email", .undefined),
        ("important_notes", .arr [])]) ∧
    isStr (JsValue.num (.dec 7 0)) = false := by
  exact ⟨by decide, by decide⟩

/-- C4 (amended): when the LLM response cannot be parsed as JSON even
after the repair pass, the Budget and CTA extractors return a
method = error outcome whose rawText is the original input document text
(not the unparseable LLM response, which is only logged to the console);
the Protocol extractor behaves the same after its single parse attempt.
No data is attached to such an outcome. -/
theorem malformed_json_error_outcome :
    ∀ documentText resultText : String,
      ((jsonParse (cleanJsonResponseBudget resultText)).isOk = false →
        (jsonParse (repairJson (cleanJsonResponseBudget resultText))).isOk = false →
        (budgetFromResponse documentText resultText).method = .error ∧
        (budgetFromResponse documentText resultText).data = none ∧
        (budgetFromResponse documentText resultText).rawText = some documentText ∧
        (ctaFromResponse documentText resultText).method = .error ∧
        (ctaFromResponse documentText resultText).data = none ∧
        (ctaFromResponse documentText resultText).rawText = some documentText) ∧
      ((jsonParse (cleanJsonResponseOcr resultText)).isOk = false →
        (protocolFromResponse documentText resultText).method = .error ∧
        (protocolFromResponse documentText resultText).data = none ∧
        (protocolFromResponse documentText resultText).rawText = some documentText) := by
  intro documentText resultText
  constructor
  · intro h1 h2
    cases hp1 : jsonParse (cleanJsonResponseBudget resultText) with
    | ok v => rw [hp1] at h1; simp [Except.isOk, Except.toBool] at h1
    | error e1 =>
        cases hp2 : jsonParse (repairJson (cleanJsonResponseBudget resultText)) with
        | ok v => rw [hp2] at h2; simp [Except.isOk, Except.toBool] at h2
        | error e2 =>
            simp [budgetFromResponse, ctaFromResponse, hp1, hp2]
  · intro h3
    cases hp3 : jsonParse (cleanJsonResponseOcr resultText) with
    | ok v => rw [hp3] at h3; simp [Except.isOk, Except.toBool] at h3
    | error e3 =>
        simp [protocolFromResponse, hp3]

theorem malformed_json_error_outcome_witness :
    ((budgetFromResponse "DOC TEXT" "not json at all").method = .error ∧
      (budgetFromResponse "DOC TEXT" "not json at all").data = none ∧
      (budgetFromResponse "DOC TEXT" "not json at all").rawText = some "DOC TEXT" ∧
      (ctaFromResponse "DOC TEXT" "not json at all").method = .error ∧
      (ctaFromResponse "DOC TEXT" "not json at all").data = none ∧
      (ctaFromResponse "DOC TEXT" "not json at all").rawText = some "DOC TEXT") ∧
    ((protocolFromResponse "DOC TEXT" "not json at all").method = .error ∧
      (protocolFromResponse "DOC TEXT" "not json at all").data = none ∧
      (protocolFromResponse "DOC TEXT" "not json at all").rawText = some "DOC TEXT") :=
  ⟨(malformed_json_error_outcome "DOC TEXT" "not json at all").1 (by decide) (by decide),
   (malformed_json_error_outcome "DOC TEXT" "not json at all").2 (by decide)⟩

/-- C4 counterexample: on the unrepairable response "not json at all"
the Budget extractor's error outcome carries the input document text
("DOC TEXT") in rawText — not the raw LLM response text, contrary to the
claim that the raw response text is attached. -/
theorem malformed_json_error_cx :
    budgetFromResponse "DOC TEXT" "not json at all" =
      ⟨.error, none, some "DOC TEXT", some "SyntaxError: unexpected token"⟩ ∧
    (some "DOC TEXT" : Option String) ≠ some "not json at all" := by
  exact ⟨by decide, by decide⟩

/-- C6 (amended): the repair pass recovers parseable JSON on
brace-balanced inputs exhibiting each tolerated defect — a trailing
comma, single-quoted strings, bare object keys, and their combination —
provided no string value contains a word character directly followed by
a colon; inputs with such values can be corrupted by the bare-key
quoting step (see the counterexample). -/
theorem repair_tolerance :
    (jsonParse (repairJson "\x7b\"a\": 1,\x7d")).isOk = true ∧
    (jsonParse (repairJson "\x7b'a': 'b'\x7d")).isOk = true ∧
    (jsonParse (repairJson "\x7ba: 1\x7d")).isOk = true ∧
    (jsonParse (repairJson "\x7ba: 'b', c: [1, 2,],\x7d")).isOk = true := by
  exact ⟨by decide, by decide, by decide, by decide⟩

/-- C6 counterexample: the input whose only defect is a trailing comma —
stripping that comma alone yields valid JSON — but whose string value
contains "x:"; the repair pass quotes the x inside the string and
collapses the resulting doubled quotes, and the result no longer
parses. -/
theorem repair_tolerance_cx :
    (jsonParse "\x7b\"a\": \"x: y\"\x7d").isOk = true ∧
    repairJson "\x7b\"a\": \"x: y\",\x7d" = "\x7b\"a\": \"x\": y\"\x7d" ∧
    (jsonParse (repairJson "\x7b\"a\": \"x: y\",\x7d")).isOk = false := by
  exact ⟨by decide, by decide, by decide⟩

theorem numOr0_ne_nan (n : JsNum) : numOr0 n ≠ .nan := by
  cases n with
  | nan => decide
  | inf b => cases b <;> decide
  | dec m e =>
      rw [numOr0]
      split
      · intro hc; cases hc
      · intro hc; cases hc

/-- C8 (amended): the numeric coercions are total — a defined value for
every raw input, never an exception — and never produce NaN, and a
malformed numeric string coerces to the 0 / unset default.  Finiteness,
however, can fail for every coerced field: an amount string parsing to
Infinity is kept as Infinity, and an enrollment or visit-number digit
string whose value exceeds the double range parses to Infinity as well
(see the counterexample). -/
theorem numeric_coercion_total :
    (∀ v, coerceAmount v ≠ .nan) ∧
    (∀ v, coerceEnrollment v ≠ .nan) ∧
    (∀ v, coerceVisitNumber v = .undefined ∨
      ∃ n, coerceVisitNumber v = .num n ∧ n.truthy = true ∧ n ≠ .nan) ∧
    (∀ s, parseFloatString s = .nan → coerceAmount (.str s) = .dec 0 0) ∧
    (∀ s, parseIntString s = .nan → coerceEnrollment (.str s) = .dec 0 0) := by
  refine ⟨?_, ?_, ?_, ?_, ?_⟩
  · intro v
    exact numOr0_ne_nan _
  · intro v
    exact numOr0_ne_nan _
  · intro v
    rw [coerceVisitNumber]
    by_cases ht : (jsParseInt v).truthy = true
    · rw [if_pos ht]
      refine Or.inr ⟨jsParseInt v, rfl, ht, ?_⟩
      intro hc
      rw [hc] at ht
      exact absurd ht (by decide)
    · rw [if_neg ht]
      exact Or.inl rfl
  · intro s h
    have hps : jsParseFloat (.str s) = parseFloatString s := rfl
    rw [coerceAmount, hps, h]
    decide
  · intro s h
    have hps : jsToString (.str s) = s := rfl
    rw [coerceEnrollment, hps, h]
    decide

theorem numeric_coercion_total_witness :
    coerceAmount (.str "twelve dollars") = .dec 0 0 ∧
    coerceEnrollment (.str "twelve dollars") = .dec 0 0 :=
  ⟨numeric_coercion_total.2.2.2.1 "twelve dollars" (by decide),
   numeric_coercion_total.2.2.2.2 "twelve dollars" (by decide)⟩

set_option maxRecDepth 8000 in
/-- C8 counterexample: the raw amount string "Infinity" coerces to the
non-finite number Infinity (which is neither a valid finite number nor
the 0 default) and the item is retained with that amount; likewise a
target_enrollment digit string of value 10 ^ 309 (beyond the double
range) coerces to Infinity rather than a finite number. -/
theorem numeric_coercion_total_cx :
    ensureProcedurePayments (.arr [.obj [
        ("procedure_name", .str "A"), ("payment_amount", .str "Infinity")]]) =
      .ok (.arr [.obj [
        ("procedure_name", .str "A"),
        ("payment_amount", .num (.inf true)),
        ("currency", .str "USD"),
        ("per_patient", .bool true),
        ("visit_associated", .undefined),
        ("notes", .undefined)]]) ∧
    JsNum.isFinite (.inf true) = false ∧
    JsNum.inf true ≠ .dec 0 0 ∧
    coerceEnrollment (.str (String.mk ('1' :: List.replicate 309 '0'))) = .inf true := by
  exact ⟨by decide, by decide, by decide, by decide⟩

theorem dropWhile_dropWhile (p : Char → Bool) (l : List Char) :
    (l.dropWhile p).dropWhile p = l.dropWhile p := by
  induction l with
  | nil => rfl
  | cons c t ih =>
      by_cases h : p c
      · simp [List.dropWhile_cons, h, ih]
      · simp [List.dropWhile_cons, h]

theorem dropWhile_length_le (p : Char → Bool) (l : List Char) :
    (l.dropWhile p).length ≤ l.length := by
  induction l with
  | nil => simp
  | cons c t ih =>
      rw [List.dropWhile_cons]
      split
      · exact Nat.le_trans ih (Nat.le_succ _)
      · exact Nat.le_refl _

theorem dropWhile_suffix_ex (p : Char → Bool) (l : List Char) :
    ∃ t, t ++ l.dropWhile p = l := by
  induction l with
  | nil => exact ⟨[], rfl⟩
  | cons c r ih =>
      by_cases h : p c
      · rcases ih with ⟨t, ht⟩
        exact ⟨c :: t, by simp [List.dropWhile_cons, h, ht]⟩
      · exact ⟨[], by simp [List.dropWhile_cons, h]⟩

theorem dropWhile_suffix_all (p : Char → Bool) (l : List Char) :
    ∃ t, t ++ l.dropWhile p = l ∧ ∀ c ∈ t, p c = true := by
  induction l with
  | nil => exact ⟨[], rfl, by simp⟩
  | cons c r ih =>
      by_cases h : p c
      · rcases ih with ⟨t, ht, hall⟩
        refine ⟨c :: t, by simp [List.dropWhile_cons, h, ht], ?_⟩
        intro x hx
        rcases List.mem_cons.mp hx with rfl | hx
        · exact h
        · exact hall x hx
      · exact ⟨[], by simp [List.dropWhile_cons, h], by simp⟩

theorem trimRightChars_idem (m : List Char) :
    trimRightChars (trimRightChars m) = trimRightChars m := by
  unfold trimRightChars
  rw [List.reverse_reverse, dropWhile_dropWhile]

theorem trimLeft_of_trimmed {m : List Char} (hm : m.dropWhile isJsSpace = m) :
    trimLeftChars (trimRightChars m) = trimRightChars m := by
  rcases dropWhile_suffix_ex isJsSpace m.reverse with ⟨t, ht⟩
  have hm2 : (m.reverse.dropWhile isJsSpace).reverse ++ t.reverse = m := by
    have h := congrArg List.reverse ht
    simpa [List.reverse_append] using h
  unfold trimLeftChars trimRightChars
  cases hX : (m.reverse.dropWhile isJsSpace).reverse with
  | nil => simp
  | cons c xs =>
      rw [hX] at hm2
      have hmc : m = c :: (xs ++ t.reverse) := by rw [← hm2]; simp
      have hpc : isJsSpace c = false := by
        by_cases h : isJsSpace c
        · exfalso
          have hdw := hm
          rw [hmc, List.dropWhile_cons, if_pos h] at hdw
          have hlen := congrArg List.length hdw
          have hle := dropWhile_length_le isJsSpace (xs ++ t.reverse)
          simp only [List.length_cons] at hlen
          omega
        · exact eq_false_of_ne_true h
      rw [List.dropWhile_cons, hpc]
      simp

theorem trimChars_idem (l : List Char) : trimChars (trimChars l) = trimChars l := by
  unfold trimChars
  have h2 : trimLeftChars (trimRightChars (trimLeftChars l)) =
      trimRightChars (trimLeftChars l) :=
    trimLeft_of_trimmed (dropWhile_dropWhile isJsSpace l)
  rw [h2, trimRightChars_idem]

theorem jsTrim_idem (s : String) : jsTrim (jsTrim s) = jsTrim s := by
  unfold jsTrim
  rw [show (String.mk (trimChars s.toList)).toList = trimChars s.toList from rfl,
    trimChars_idem]

/-- Elements of an ensureArray result are non-empty trimmed strings. -/
theorem ensureArray_elems {v : JsValue} {L : List JsValue} (h : ensureArray v = .arr L) :
    ∀ x ∈ L, ∃ s, x = .str s ∧ jsTrim s = s ∧ s ≠ "" := by
  intro x hx
  cases v with
  | arr items =>
      rw [ensureArray] at h
      simp only [JsValue.arr.injEq] at h
      subst h
      rcases List.mem_map.mp hx with ⟨s, hs, rfl⟩
      rcases List.mem_filter.mp hs with ⟨hs1, hs2⟩
      rcases List.mem_map.mp hs1 with ⟨item, _, rfl⟩
      refine ⟨jsTrim (jsToString item), rfl, jsTrim_idem _, ?_⟩
      simpa using hs2
  | str s0 =>
      rw [ensureArray] at h
      by_cases h1 : jsTrim s0 = ""
      · rw [if_neg (by simpa using h1)] at h
        simp only [JsValue.arr.injEq] at h
        subst h
        simp at hx
      · rw [if_pos (by simpa using h1)] at h
        by_cases h2 : s0.contains '\n'
        · rw [if_pos h2] at h
          simp only [JsValue.arr.injEq] at h
          subst h
          rcases List.mem_map.mp hx with ⟨s, hs, rfl⟩
          rcases List.mem_filter.mp hs with ⟨hs1, hs2⟩
          rcases List.mem_map.mp hs1 with ⟨u, _, rfl⟩
          refine ⟨jsTrim u, rfl, jsTrim_idem _, ?_⟩
          simpa using hs2
        · rw [if_neg h2] at h
          simp only [JsValue.arr.injEq] at h
          subst h
          rcases List.mem_singleton.mp hx with rfl
          exact ⟨jsTrim s0, rfl, jsTrim_idem _, h1⟩
  | null =>
      simp only [ensureArray, JsValue.arr.injEq] at h
      subst h
      simp at hx
  | undefined =>
      simp only [ensureArray, JsValue.arr.injEq] at h
      subst h
      simp at hx
  | bool b =>
      simp only [ensureArray, JsValue.arr.injEq] at h
      subst h
      simp at hx
  | num n =>
      simp only [ensureArray, JsValue.arr.injEq] at h
      subst h
      simp at hx
  | obj fs =>
      simp only [ensureArray, JsValue.arr.injEq] at h
      subst h
      simp at hx

theorem strList_rebuild {L : List JsValue}
    (hL : ∀ x ∈ L, ∃ s, x = .str s ∧ jsTrim s = s ∧ s ≠ "") :
    ((L.map (fun item => jsTrim (jsToString item))).filter (fun s => s != "")).map
      JsValue.str = L := by
  induction L with
  | nil => rfl
  | cons x xs ih =>
      have hxs := ih (fun y hy => hL y (List.mem_cons_of_mem x hy))
      rcases hL x (List.mem_cons_self x xs) with ⟨s, rfl, hfix, hne⟩
      simp only [List.map_cons]
      rw [show jsTrim (jsToString (.str s)) = jsTrim s from rfl, hfix, List.filter_cons,
        if_pos (by simpa using hne), List.map_cons, hxs]

/-- isArr as an existence statement. -/
theorem isArr_ex {w : JsValue} (h : isArr w = true) : ∃ xs, w = .arr xs := by
  cases w <;> simp [isArr] at h ⊢

theorem ensureArray_idem (v : JsValue) : ensureArray (ensureArray v) = ensureArray v := by
  rcases isArr_ex (isArr_ensureArray v) with ⟨L, hL⟩
  rw [hL, ensureArray]
  exact congrArg JsValue.arr (strList_rebuild (ensureArray_elems hL))

theorem digitChar_facts {d : Nat} (hd : d < 10) :
    isDigitChar (digitChar d) = true ∧ isJsSpace (digitChar d) = false ∧
      digitVal (digitChar d) = d ∧ digitChar d ≠ '-' ∧ digitChar d ≠ '+' ∧
      digitChar d ≠ 'x' ∧ digitChar d ≠ 'X' := by
  interval_cases d <;> exact ⟨by decide, by decide, by decide, by decide, by decide,
    by decide, by decide⟩

theorem natDigitChars_ne_nil (n : Nat) : natDigitChars n ≠ [] := by
  rw [natDigitChars]
  split
  · exact (by decide)
  · intro hc
    rename_i hn
    have hlen := congrArg List.length hc
    simp at hlen
    rw [Nat.digits_eq_nil_iff_eq_zero] at hlen
    exact hn hlen

theorem natDigitChars_digits {n : Nat} :
    ∀ c ∈ natDigitChars n, ∃ d, d < 10 ∧ c = digitChar d := by
  intro c hc
  rw [natDigitChars] at hc
  split at hc
  · rcases List.mem_singleton.mp hc with rfl
    exact ⟨0, by decide, rfl⟩
  · rw [List.mem_reverse] at hc
    rcases List.mem_map.mp hc with ⟨d, hdm, rfl⟩
    exact ⟨d, Nat.digits_lt_base (by norm_num) hdm, rfl⟩

theorem takeWhile_all {p : Char → Bool} :
    ∀ {l : List Char}, (∀ c ∈ l, p c = true) → l.takeWhile p = l := by
  intro l
  induction l with
  | nil => intro _; rfl
  | cons c t ih =>
      intro h
      rw [List.takeWhile_cons, if_pos (h c (List.mem_cons_self c t)),
        ih (fun x hx => h x (List.mem_cons_of_mem c hx))]

theorem charsToNat_natDigitChars (n : Nat) : charsToNat (natDigitChars n) = n := by
  by_cases hn : n = 0
  · subst hn; decide
  · rw [natDigitChars, if_neg hn, charsToNat]
    rw [← List.map_reverse, List.reverse_reverse]
    rw [List.map_map]
    have h2 : List.map (digitVal ∘ digitChar) (Nat.digits 10 n) = Nat.digits 10 n := by
      have h3 := List.map_congr_left (l := Nat.digits 10 n) (f := digitVal ∘ digitChar)
        (g := id) (fun d hd => (digitChar_facts (Nat.digits_lt_base (by norm_num) hd)).2.2.1)
      simpa using h3
    rw [h2, Nat.ofDigits_digits]

theorem hexPrefixRest_none_of_digits {cs : List Char}
    (hdig : ∀ c ∈ cs, ∃ d, d < 10 ∧ c = digitChar d) : hexPrefixRest cs = none := by
  match cs with
  | [] => rfl
  | [c] => rfl
  | c0 :: c1 :: rest =>
      rcases hdig c1 (List.mem_cons_of_mem _ (List.mem_cons_self c1 rest)) with ⟨d1, hd1, rfl⟩
      have hf := digitChar_facts hd1
      rw [hexPrefixRest, if_neg ?_]
      simp only [Bool.and_eq_true, Bool.or_eq_true, decide_eq_true_eq]
      rintro ⟨-, h | h⟩
      · exact hf.2.2.2.2.2.1 h
      · exact hf.2.2.2.2.2.2 h

/-- Evaluation of parseIntString on a pure digit string whose value is
below the double overflow boundary. -/
theorem parseIntString_eval {cs : List Char} (hne : cs ≠ [])
    (hdig : ∀ c ∈ cs, ∃ d, d < 10 ∧ c = digitChar d)
    (hlt : charsToNat cs < doubleOverflowBound) :
    parseIntString (String.mk cs) = .dec (charsToNat cs) 0 := by
  rcases List.exists_cons_of_ne_nil hne with ⟨c, t, rfl⟩
  rcases hdig c (List.mem_cons_self c t) with ⟨d, hd, rfl⟩
  have hfacts := digitChar_facts hd
  rw [parseIntString]
  dsimp only
  rw [show (String.mk (digitChar d :: t)).toList = digitChar d :: t from rfl]
  rw [List.dropWhile_cons, if_neg (by rw [hfacts.2.1]; exact Bool.false_ne_true)]
  rw [show stripSign (digitChar d :: t) = (false, digitChar d :: t) from by
    rw [stripSign, if_neg hfacts.2.2.2.1, if_neg hfacts.2.2.2.2.1]]
  dsimp only
  rw [hexPrefixRest_none_of_digits hdig]
  dsimp only
  rw [takeWhile_all (p := isDigitChar) (fun x hx => by
    rcases hdig x hx with ⟨e, he, rfl⟩
    exact (digitChar_facts he).1)]
  rw [if_neg (List.cons_ne_nil _ _), intToNumber, if_neg (Nat.not_le.mpr hlt)]
  simp

theorem parseIntString_eval_neg {cs : List Char} (hne : cs ≠ [])
    (hdig : ∀ c ∈ cs, ∃ d, d < 10 ∧ c = digitChar d)
    (hlt : charsToNat cs < doubleOverflowBound) :
    parseIntString (String.mk ('-' :: cs)) = .dec (-(charsToNat cs : Int)) 0 := by
  rcases List.exists_cons_of_ne_nil hne with ⟨c, t, rfl⟩
  rw [parseIntString]
  dsimp only
  rw [show (String.mk ('-' :: c :: t)).toList = '-' :: c :: t from rfl]
  rw [List.dropWhile_cons,
    if_neg (by rw [show isJsSpace '-' = false from rfl]; exact Bool.false_ne_true)]
  rw [show stripSign ('-' :: c :: t) = (true, c :: t) from by rw [stripSign, if_pos rfl]]
  dsimp only
  rw [hexPrefixRest_none_of_digits hdig]
  dsimp only
  rw [takeWhile_all (p := isDigitChar) (fun x hx => by
    rcases hdig x hx with ⟨e, he, rfl⟩
    exact (digitChar_facts he).1)]
  rw [if_neg (List.cons_ne_nil _ _), intToNumber, if_neg (Nat.not_le.mpr hlt)]
  simp

/-- Recomposition: the stripped significant digits followed by the
stripped zeros give back the original digit list, which they never
exceed in length. -/
theorem stripTrailingZeros_spec (ds : List Char) :
    (stripTrailingZeros ds).1 ++
      List.replicate (ds.length - (stripTrailingZeros ds).1.length) '0' = ds ∧
    (stripTrailingZeros ds).1.length ≤ ds.length := by
  have hS : (stripTrailingZeros ds).1 =
      (ds.reverse.dropWhile (fun c => c = '0')).reverse := rfl
  rcases dropWhile_suffix_all (fun c => c = '0') ds.reverse with ⟨t, ht, hall⟩
  have htz : t = List.replicate t.length '0' :=
    List.eq_replicate_of_mem (fun c hc => of_decide_eq_true (hall c hc))
  have hds : (ds.reverse.dropWhile (fun c => c = '0')).reverse ++ t.reverse = ds := by
    have h := congrArg List.reverse ht
    rw [List.reverse_append, List.reverse_reverse] at h
    exact h
  have hrev : t.reverse = List.replicate t.length '0' := by
    conv_lhs => rw [htz]
    exact List.reverse_replicate t.length '0'
  have hlen : (ds.reverse.dropWhile (fun c => c = '0')).reverse.length + t.length
      = ds.length := by
    have h := congrArg List.length hds
    simpa [List.length_append] using h
  constructor
  · rw [hS]
    have hc : ds.length - (ds.reverse.dropWhile (fun c => c = '0')).reverse.length
        = t.length := by omega
    rw [hc, ← hrev]
    exact hds
  · rw [hS]
    omega

/-- Digit strings of numbers below 10 ^ B have at most B digits. -/
theorem natDigitChars_len_le {n B : Nat} (hn : n < 10 ^ B) (hB : 0 < B) :
    (natDigitChars n).length ≤ B := by
  rw [natDigitChars]
  split
  · simpa using hB
  · rename_i h0
    rw [List.length_reverse, List.length_map]
    by_contra hgt
    push_neg at hgt
    have hle := Nat.base_pow_length_digits_le 10 n (by norm_num) h0
    have h1 : 10 ^ (B + 1) ≤ 10 ^ (Nat.digits 10 n).length :=
      Nat.pow_le_pow_right (by norm_num) hgt
    have h2 : 10 ^ (B + 1) ≤ 10 * n := le_trans h1 hle
    have h3 : 10 ^ (B + 1) = 10 * 10 ^ B := by ring
    omega

/-- Below 10 ^ 21, decString prints an integer in plain positional
notation: the sign followed by its digits. -/
theorem decString_int_small {k : Int} (h0 : k ≠ 0) (hk : k.natAbs < 10 ^ 21) :
    decString k 0 = (if k < 0 then "-" else "") ++ natStr k.natAbs := by
  rcases stripTrailingZeros_spec (natDigitChars k.natAbs) with ⟨hrec, hle⟩
  have hL : (natDigitChars k.natAbs).length ≤ 21 := natDigitChars_len_le hk (by norm_num)
  rw [decString, if_neg h0]
  dsimp only
  rw [decStringPos]
  simp only [Nat.cast_zero, Int.sub_zero, Int.toNat_natCast]
  rw [show digitChar 0 = '0' from by decide, hrec]
  congr 1
  split
  · rfl
  · rename_i hcon
    exact absurd ⟨by omega, by omega⟩ hcon

set_option maxRecDepth 8000 in
/-- parseInt inverts the decString printing of an integer below
10 ^ 21 (larger magnitudes print in exponent notation, which parseInt
truncates at the e). -/
theorem parseIntString_decString {k : Int} (hk : k.natAbs < 10 ^ 21) :
    parseIntString (decString k 0) = .dec k 0 := by
  by_cases h0 : k = 0
  · subst h0
    rw [show decString 0 0 = "0" from rfl]
    decide
  · have hsmall : charsToNat (natDigitChars k.natAbs) < doubleOverflowBound := by
      rw [charsToNat_natDigitChars]
      calc k.natAbs < 10 ^ 21 := hk
        _ < doubleOverflowBound := by decide
    rw [decString_int_small h0 hk]
    by_cases hneg : k < 0
    · rw [if_pos hneg]
      rw [show (("-" : String) ++ natStr k.natAbs) = String.mk ('-' :: natDigitChars k.natAbs)
        from rfl]
      rw [parseIntString_eval_neg (natDigitChars_ne_nil _) natDigitChars_digits hsmall,
        charsToNat_natDigitChars]
      have hx : -((k.natAbs : Int)) = k := by omega
      rw [hx]
    · rw [if_neg hneg]
      rw [show (("" : String) ++ natStr k.natAbs) = String.mk (natDigitChars k.natAbs) from rfl]
      rw [parseIntString_eval (natDigitChars_ne_nil _) natDigitChars_digits hsmall,
        charsToNat_natDigitChars]
      have hx : ((k.natAbs : Int)) = k := by omega
      rw [hx]

theorem ne_undefined_of_truthy {v : JsValue} (h : jsTruthy v = true) : v ≠ .undefined := by
  intro hc
  subst hc
  exact Bool.false_ne_true h

theorem jrFields_keep {k : String} {v : JsValue} (fs : List (String × JsValue))
    (h : v ≠ .undefined) :
    jsonRoundtripFields ((k, v) :: fs) = (k, jsonRoundtrip v) :: jsonRoundtripFields fs := by
  rw [jsonRoundtripFields, if_neg h]

theorem jrFields_drop (k : String) (fs : List (String × JsValue)) :
    jsonRoundtripFields ((k, JsValue.undefined) :: fs) = jsonRoundtripFields fs := by
  rw [jsonRoundtripFields, if_pos rfl]

theorem mapProcItem_obj (L : List (String × JsValue)) :
    mapProcItem (.obj L) = .ok (.obj [
      ("procedure_name", jsOr (lookupField L "procedure_name") (.str "Unknown Procedure")),
      ("payment_amount", .num (coerceAmount (lookupField L "payment_amount"))),
      ("currency", jsOr (lookupField L "currency") (.str "USD")),
      ("per_patient", .bool (lookupField L "per_patient" != JsValue.bool false)),
      ("visit_associated", jsOrUndef (lookupField L "visit_associated")),
      ("notes", jsOrUndef (lookupField L "notes"))]) := by
  rw [mapProcItem]
  simp only [getField, Bind.bind, Except.bind, pure, Except.pure]

theorem coerceAmount_num_dec {a : Int} {e : Nat} (ha : a ≠ 0) :
    coerceAmount (.num (.dec a e)) = .dec a e := by
  rw [coerceAmount, show jsParseFloat (.num (.dec a e)) = .dec a e from rfl, numOr0]
  rw [if_pos (by simp [JsNum.truthy, ha])]

theorem bne_bool_false (B : Bool) : (JsValue.bool B != JsValue.bool false) = B := by
  cases B <;> decide

theorem mapProcItem_roundtrip {N C V T : JsValue} {a : Int} {e : Nat}
    (hN : jsonRoundtrip N = N) (hNt : jsTruthy N = true)
    (hC : jsonRoundtrip C = C) (hCt : jsTruthy C = true)
    (ha : 0 < a) (B : Bool)
    (hV : V = .undefined ∨ (jsonRoundtrip V = V ∧ jsTruthy V = true))
    (hT : T = .undefined ∨ (jsonRoundtrip T = T ∧ jsTruthy T = true)) :
    mapProcItem (jsonRoundtrip (.obj [
      ("procedure_name", N), ("payment_amount", .num (.dec a e)), ("currency", C),
      ("per_patient", .bool B), ("visit_associated", V), ("notes", T)])) =
      .ok (.obj [
      ("procedure_name", N), ("payment_amount", .num (.dec a e)), ("currency", C),
      ("per_patient", .bool B), ("visit_associated", V), ("notes", T)]) := by
  have hNe := ne_undefined_of_truthy hNt
  have hCe := ne_undefined_of_truthy hCt
  rw [show jsonRoundtrip (.obj [
      ("procedure_name", N), ("payment_amount", .num (.dec a e)), ("currency", C),
      ("per_patient", .bool B), ("visit_associated", V), ("notes", T)]) =
      .obj (jsonRoundtripFields [
      ("procedure_name", N), ("payment_amount", .num (.dec a e)), ("currency", C),
      ("per_patient", .bool B), ("visit_associated", V), ("notes", T)]) from rfl]
  rw [jrFields_keep _ hNe, hN,
    jrFields_keep _ (by intro hc; cases hc),
    show jsonRoundtrip (.num (.dec a e)) = .num (.dec a e) from rfl,
    jrFields_keep _ hCe, hC,
    jrFields_keep _ (by intro hc; cases hc),
    show jsonRoundtrip (.bool B) = .bool B from rfl]
  rcases hV with rfl | ⟨hVf, hVt⟩ <;> rcases hT with rfl | ⟨hTf, hTt⟩
  · rw [jrFields_drop, jrFields_drop,
      show jsonRoundtripFields ([] : List (String × JsValue)) = [] from rfl]
    rw [mapProcItem_obj]
    simp only [lookupField, String.reduceEq, reduceIte]
    rw [jsOr_of_truthy _ hNt, jsOr_of_truthy _ hCt, coerceAmount_num_dec (by omega),
      bne_bool_false]
    rfl
  · rw [jrFields_drop, jrFields_keep _ (ne_undefined_of_truthy hTt), hTf,
      show jsonRoundtripFields ([] : List (String × JsValue)) = [] from rfl]
    rw [mapProcItem_obj]
    simp only [lookupField, String.reduceEq, reduceIte]
    rw [jsOr_of_truthy _ hNt, jsOr_of_truthy _ hCt, coerceAmount_num_dec (by omega),
      bne_bool_false, show jsOrUndef JsValue.undefined = JsValue.undefined from rfl,
      jsOrUndef, jsOr_of_truthy _ hTt]
  · rw [jrFields_keep _ (ne_undefined_of_truthy hVt), hVf, jrFields_drop,
      show jsonRoundtripFields ([] : List (String × JsValue)) = [] from rfl]
    rw [mapProcItem_obj]
    simp only [lookupField, String.reduceEq, reduceIte]
    rw [jsOr_of_truthy _ hNt, jsOr_of_truthy _ hCt, coerceAmount_num_dec (by omega),
      bne_bool_false, jsOrUndef, jsOr_of_truthy _ hVt]
    rfl
  · rw [jrFields_keep _ (ne_undefined_of_truthy hVt), hVf,
      jrFields_keep _ (ne_undefined_of_truthy hTt), hTf,
      show jsonRoundtripFields ([] : List (String × JsValue)) = [] from rfl]
    rw [mapProcItem_obj]
    simp only [lookupField, String.reduceEq, reduceIte]
    rw [jsOr_of_truthy _ hNt, jsOr_of_truthy _ hCt, coerceAmount_num_dec (by omega),
      bne_bool_false, jsOrUndef, jsOr_of_truthy _ hVt, jsOrUndef, jsOr_of_truthy _ hTt]

theorem jsonFixed_eq {v : JsValue} (h : jsonFixed v = true) : jsonRoundtrip v = v := by
  simpa [jsonFixed] using h

theorem stableOpt_elim {v : JsValue} (h : stableOpt v = true) :
    v = .undefined ∨ (jsonRoundtrip v = v ∧ jsTruthy v = true) := by
  rw [stableOpt, Bool.or_eq_true, Bool.and_eq_true] at h
  rcases h with h | ⟨h1, h2⟩
  · exact Or.inl (by simpa using h)
  · exact Or.inr ⟨jsonFixed_eq h1, h2⟩

theorem jrElems_map (l : List JsValue) : jsonRoundtripElems l = l.map jsonRoundtrip := by
  induction l with
  | nil => rfl
  | cons x xs ih => rw [jsonRoundtripElems, ih, List.map_cons]

theorem stableAmount_num_ex {A : JsNum} (h : stableAmount (.num A) = true) :
    ∃ a e, A = .dec a e := by
  cases A with
  | nan => simp [stableAmount] at h
  | inf b => simp [stableAmount] at h
  | dec a e => exact ⟨a, e, rfl⟩


theorem ensureProc_roundtrip {v : JsValue} {outs : List JsValue}
    (h : ensureProcedurePayments v = .ok (.arr outs))
    (hstab : ∀ o ∈ outs, stableProcItem o = true) :
    ensureProcedurePayments (jsonRoundtrip (.arr outs)) = .ok (.arr outs) := by
  have hkeep : ∀ o ∈ outs, keepProc o = true := fun o ho => ((ensureProc_outs h) o ho).1
  have hmap : ∀ o ∈ outs, mapProcItem (jsonRoundtrip o) = .ok o := by
    intro o ho
    have hk := (ensureProc_outs h) o ho
    rcases hk with ⟨hk, item, hitem⟩
    have hsh := mapProcItem_ok hitem
    set N := jsOr (jget item "procedure_name") (JsValue.str "Unknown Procedure") with hNdef
    set A := coerceAmount (jget item "payment_amount") with hAdef
    set C := jsOr (jget item "currency") (JsValue.str "USD") with hCdef
    set B := (jget item "per_patient" != JsValue.bool false) with hBdef
    set V := jsOrUndef (jget item "visit_associated") with hVdef
    set T := jsOrUndef (jget item "notes") with hTdef
    subst hsh
    have hst := hstab _ ho
    rw [stableProcItem] at hst
    simp only [jget, lookupField, String.reduceEq, reduceIte, Bool.and_eq_true] at hst
    obtain ⟨⟨⟨⟨hamt, hNf, hNt⟩, hCf, hCt⟩, hVs⟩, hTs⟩ := hst
    rw [keepProc] at hk
    simp only [jget, lookupField, String.reduceEq, reduceIte, Bool.and_eq_true,
      amountGtZero] at hk
    rcases stableAmount_num_ex hamt with ⟨a, e, hae⟩
    rw [hae] at hk ⊢
    have ha : 0 < a := by
      have h2 := hk.2
      rw [JsNum.gtZero] at h2
      exact of_decide_eq_true h2
    exact mapProcItem_roundtrip (jsonFixed_eq hNf) hNt (jsonFixed_eq hCf) hCt ha _
      (stableOpt_elim hVs) (stableOpt_elim hTs)
  rw [show jsonRoundtrip (.arr outs) = .arr (jsonRoundtripElems outs) from rfl, jrElems_map,
    ensureProcedurePayments, mapExcept_map_self hmap]
  dsimp only
  rw [List.filter_eq_self.mpr hkeep]

theorem mapVisitItem_obj (L : List (String × JsValue)) :
    mapVisitItem (.obj L) = .ok (.obj [
      ("visit_name", jsOr (lookupField L "visit_name") (.str "Unknown Visit")),
      ("visit_number", coerceVisitNumber (lookupField L "visit_number")),
      ("total_payment", .num (coerceAmount (lookupField L "total_payment"))),
      ("currency", jsOr (lookupField L "currency") (.str "USD")),
      ("procedures_included", ensureIsArray (lookupField L "procedures_included"))]) := by
  rw [mapVisitItem]
  simp only [getField, Bind.bind, Except.bind, pure, Except.pure]

theorem mapMilestoneItem_obj (L : List (String × JsValue)) :
    mapMilestoneItem (.obj L) = .ok (.obj [
      ("milestone_name", jsOr (lookupField L "milestone_name") (.str "Unknown Milestone")),
      ("payment_amount", .num (coerceAmount (lookupField L "payment_amount"))),
      ("currency", jsOr (lookupField L "currency") (.str "USD")),
      ("trigger_condition", jsOr (lookupField L "trigger_condition") (.str ""))]) := by
  rw [mapMilestoneItem]
  simp only [getField, Bind.bind, Except.bind, pure, Except.pure]

theorem coerceVisitNumber_int {k : Int} (hk : k ≠ 0) (hb : k.natAbs < 10 ^ 21) :
    coerceVisitNumber (.num (.dec k 0)) = .num (.dec k 0) := by
  rw [coerceVisitNumber,
    show jsParseInt (.num (.dec k 0)) = parseIntString (decString k 0) from rfl,
    parseIntString_decString hb]
  rw [if_pos (by simp [JsNum.truthy, hk])]

theorem stableVisitNumber_elim {v : JsValue} (h : stableVisitNumber v = true) :
    v = .undefined ∨ ∃ k, v = .num (.dec k 0) ∧ k ≠ 0 ∧ k.natAbs < 10 ^ 21 := by
  cases v with
  | undefined => exact Or.inl rfl
  | num n =>
      cases n with
      | dec k e =>
          cases e with
          | zero =>
              rw [stableVisitNumber] at h
              rw [Bool.and_eq_true, bne_iff_ne, decide_eq_true_eq] at h
              exact Or.inr ⟨k, rfl, h.1, h.2⟩
          | succ e' => simp [stableVisitNumber] at h
      | nan => simp [stableVisitNumber] at h
      | inf b => simp [stableVisitNumber] at h
  | null => simp [stableVisitNumber] at h
  | bool b => simp [stableVisitNumber] at h
  | str s => simp [stableVisitNumber] at h
  | arr xs => simp [stableVisitNumber] at h
  | obj fs => simp [stableVisitNumber] at h

theorem mapVisitItem_roundtrip {N C W : JsValue} {P : List JsValue} {a : Int} {e : Nat}
    (hN : jsonRoundtrip N = N) (hNt : jsTruthy N = true)
    (hC : jsonRoundtrip C = C) (hCt : jsTruthy C = true)
    (ha : 0 < a)
    (hW : W = .undefined ∨ ∃ k, W = .num (.dec k 0) ∧ k ≠ 0 ∧ k.natAbs < 10 ^ 21)
    (hP : jsonRoundtrip (.arr P) = .arr P) :
    mapVisitItem (jsonRoundtrip (.obj [
      ("visit_name", N), ("visit_number", W), ("total_payment", .num (.dec a e)),
      ("currency", C), ("procedures_included", .arr P)])) =
      .ok (.obj [
      ("visit_name", N), ("visit_number", W), ("total_payment", .num (.dec a e)),
      ("currency", C), ("procedures_included", .arr P)]) := by
  have hNe := ne_undefined_of_truthy hNt
  have hCe := ne_undefined_of_truthy hCt
  rw [show jsonRoundtrip (.obj [
      ("visit_name", N), ("visit_number", W), ("total_payment", .num (.dec a e)),
      ("currency", C), ("procedures_included", .arr P)]) =
      .obj (jsonRoundtripFields [
      ("visit_name", N), ("visit_number", W), ("total_payment", .num (.dec a e)),
      ("currency", C), ("procedures_included", .arr P)]) from rfl]
  rw [jrFields_keep _ hNe, hN]
  rcases hW with rfl | ⟨k, rfl, hk, hkb⟩
  · rw [jrFields_drop,
      jrFields_keep _ (by intro hc; cases hc),
      show jsonRoundtrip (.num (.dec a e)) = .num (.dec a e) from rfl,
      jrFields_keep _ hCe, hC,
      jrFields_keep _ (by intro hc; cases hc), hP,
      show jsonRoundtripFields ([] : List (String × JsValue)) = [] from rfl]
    rw [mapVisitItem_obj]
    simp only [lookupField, String.reduceEq, reduceIte]
    rw [jsOr_of_truthy _ hNt, jsOr_of_truthy _ hCt, coerceAmount_num_dec (by omega),
      show coerceVisitNumber JsValue.undefined = JsValue.undefined from (by decide),
      show ensureIsArray (.arr P) = .arr P from rfl]
  · rw [jrFields_keep _ (by intro hc; cases hc),
      show jsonRoundtrip (.num (.dec k 0)) = .num (.dec k 0) from rfl,
      jrFields_keep _ (by intro hc; cases hc),
      show jsonRoundtrip (.num (.dec a e)) = .num (.dec a e) from rfl,
      jrFields_keep _ hCe, hC,
      jrFields_keep _ (by intro hc; cases hc), hP,
      show jsonRoundtripFields ([] : List (String × JsValue)) = [] from rfl]
    rw [mapVisitItem_obj]
    simp only [lookupField, String.reduceEq, reduceIte]
    rw [jsOr_of_truthy _ hNt, jsOr_of_truthy _ hCt, coerceAmount_num_dec (by omega),
      coerceVisitNumber_int hk hkb,
      show ensureIsArray (.arr P) = .arr P from rfl]

theorem mapMilestoneItem_roundtrip {N C T : JsValue} {a : Int} {e : Nat}
    (hN : jsonRoundtrip N = N) (hNt : jsTruthy N = true)
    (hC : jsonRoundtrip C = C) (hCt : jsTruthy C = true)
    (ha : 0 < a)
    (hT : T = .str "" ∨ (jsonRoundtrip T = T ∧ jsTruthy T = true)) :
    mapMilestoneItem (jsonRoundtrip (.obj [
      ("milestone_name", N), ("payment_amount", .num (.dec a e)), ("currency", C),
      ("trigger_condition", T)])) =
      .ok (.obj [
      ("milestone_name", N), ("payment_amount", .num (.dec a e)), ("currency", C),
      ("trigger_condition", T)]) := by
  have hNe := ne_undefined_of_truthy hNt
  have hCe := ne_undefined_of_truthy hCt
  rw [show jsonRoundtrip (.obj [
      ("milestone_name", N), ("payment_amount", .num (.dec a e)), ("currency", C),
      ("trigger_condition", T)]) =
      .obj (jsonRoundtripFields [
      ("milestone_name", N), ("payment_amount", .num (.dec a e)), ("currency", C),
      ("trigger_condition", T)]) from rfl]
  rw [jrFields_keep _ hNe, hN,
    jrFields_keep _ (by intro hc; cases hc),
    show jsonRoundtrip (.num (.dec a e)) = .num (.dec a e) from rfl,
    jrFields_keep _ hCe, hC]
  rcases hT with rfl | ⟨hTf, hTt⟩
  · rw [jrFields_keep _ (by intro hc; cases hc),
      show jsonRoundtrip (.str "") = .str "" from rfl,
      show jsonRoundtripFields ([] : List (String × JsValue)) = [] from rfl]
    rw [mapMilestoneItem_obj]
    simp only [lookupField, String.reduceEq, reduceIte]
    rw [jsOr_of_truthy _ hNt, jsOr_of_truthy _ hCt, coerceAmount_num_dec (by omega),
      jsOr_of_falsy _ (by decide)]
  · rw [jrFields_keep _ (ne_undefined_of_truthy hTt), hTf,
      show jsonRoundtripFields ([] : List (String × JsValue)) = [] from rfl]
    rw [mapMilestoneItem_obj]
    simp only [lookupField, String.reduceEq, reduceIte]
    rw [jsOr_of_truthy _ hNt, jsOr_of_truthy _ hCt, coerceAmount_num_dec (by omega),
      jsOr_of_truthy _ hTt]

theorem ensureVisit_roundtrip {v : JsValue} {outs : List JsValue}
    (h : ensureVisitPayments v = .ok (.arr outs))
    (hstab : ∀ o ∈ outs, stableVisitItem o = true) :
    ensureVisitPayments (jsonRoundtrip (.arr outs)) = .ok (.arr outs) := by
  have hkeep : ∀ o ∈ outs, keepVisit o = true := fun o ho => ((ensureVisit_outs h) o ho).1
  have hmap : ∀ o ∈ outs, mapVisitItem (jsonRoundtrip o) = .ok o := by
    intro o ho
    have hk := (ensureVisit_outs h) o ho
    rcases hk with ⟨hk, item, hitem⟩
    have hsh := mapVisitItem_ok hitem
    set N := jsOr (jget item "visit_name") (JsValue.str "Unknown Visit") with hNdef
    set W := coerceVisitNumber (jget item "visit_number") with hWdef
    set A := coerceAmount (jget item "total_payment") with hAdef
    set C := jsOr (jget item "currency") (JsValue.str "USD") with hCdef
    set Pv := ensureIsArray (jget item "procedures_included") with hPdef
    rcases isArr_ex (isArr_ensureIsArray (jget item "procedures_included")) with ⟨P, hP⟩
    rw [← hPdef] at hP
    subst hsh
    rw [hP]
    have hst := hstab _ ho
    rw [hP] at hst
    rw [stableVisitItem] at hst
    simp only [jget, lookupField, String.reduceEq, reduceIte, Bool.and_eq_true] at hst
    obtain ⟨⟨⟨⟨hamt, hNf, hNt⟩, hCf, hCt⟩, hWs⟩, hPs⟩ := hst
    rw [keepVisit] at hk
    simp only [jget, lookupField, String.reduceEq, reduceIte, Bool.and_eq_true,
      amountGtZero] at hk
    rcases stableAmount_num_ex hamt with ⟨a, e, hae⟩
    rw [hae] at hk ⊢
    have ha : 0 < a := by
      have h2 := hk.2
      rw [JsNum.gtZero] at h2
      exact of_decide_eq_true h2
    exact mapVisitItem_roundtrip (jsonFixed_eq hNf) hNt (jsonFixed_eq hCf) hCt ha
      (stableVisitNumber_elim hWs) (jsonFixed_eq hPs)
  rw [show jsonRoundtrip (.arr outs) = .arr (jsonRoundtripElems outs) from rfl, jrElems_map,
    ensureVisitPayments, mapExcept_map_self hmap]
  dsimp only
  rw [List.filter_eq_self.mpr hkeep]

theorem ensureMilestone_roundtrip {v : JsValue} {outs : List JsValue}
    (h : ensureMilestonePayments v = .ok (.arr outs))
    (hstab : ∀ o ∈ outs, stableMilestoneItem o = true) :
    ensureMilestonePayments (jsonRoundtrip (.arr outs)) = .ok (.arr outs) := by
  have hkeep : ∀ o ∈ outs, keepMilestone o = true :=
    fun o ho => ((ensureMilestone_outs h) o ho).1
  have hmap : ∀ o ∈ outs, mapMilestoneItem (jsonRoundtrip o) = .ok o := by
    intro o ho
    have hk := (ensureMilestone_outs h) o ho
    rcases hk with ⟨hk, item, hitem⟩
    have hsh := mapMilestoneItem_ok hitem
    set N := jsOr (jget item "milestone_name") (JsValue.str "Unknown Milestone") with hNdef
    set A := coerceAmount (jget item "payment_amount") with hAdef
    set C := jsOr (jget item "currency") (JsValue.str "USD") with hCdef
    set T := jsOr (jget item "trigger_condition") (JsValue.str "") with hTdef
    subst hsh
    have hst := hstab _ ho
    rw [stableMilestoneItem] at hst
    simp only [jget, lookupField, String.reduceEq, reduceIte, Bool.and_eq_true,
      Bool.or_eq_true, beq_iff_eq] at hst
    obtain ⟨⟨⟨hamt, hNf, hNt⟩, hCf, hCt⟩, hTs⟩ := hst
    rw [keepMilestone] at hk
    simp only [jget, lookupField, String.reduceEq, reduceIte, Bool.and_eq_true,
      amountGtZero] at hk
    rcases stableAmount_num_ex hamt with ⟨a, e, hae⟩
    rw [hae] at hk ⊢
    have ha : 0 < a := by
      have h2 := hk.2
      rw [JsNum.gtZero] at h2
      exact of_decide_eq_true h2
    refine mapMilestoneItem_roundtrip (jsonFixed_eq hNf) hNt (jsonFixed_eq hCf) hCt ha ?_
    rcases hTs with hT0 | ⟨hTf, hTt⟩
    · exact Or.inl hT0
    · exact Or.inr ⟨jsonFixed_eq hTf, hTt⟩
  rw [show jsonRoundtrip (.arr outs) = .arr (jsonRoundtripElems outs) from rfl, jrElems_map,
    ensureMilestonePayments, mapExcept_map_self hmap]
  dsimp only
  rw [List.filter_eq_self.mpr hkeep]

/-- C3 (amended): normalization is stable under repetition up to JSON
serialisability of what it keeps: ensureArray is unconditionally
idempotent, and re-normalizing a re-serialised payment array returns it
unchanged provided every retained item is JSON-stable — its amount is a
finite number within the double range, its visit_number (when present)
is a nonzero integer below 10 ^ 21 (at 1e21 ToString switches to
exponent notation, which the second pass's parseInt truncates at the e),
and its carried fields survive a JSON round trip.  (These conditions
hold automatically for raw values decoded from JSON unless an amount
string parses to Infinity; see the counterexample for the Infinity
failure.) -/
theorem normalization_idempotent :
    (∀ v, ensureArray (ensureArray v) = ensureArray v) ∧
    (∀ v outs, ensureProcedurePayments v = .ok (.arr outs) →
      (∀ o ∈ outs, stableProcItem o = true) →
      ensureProcedurePayments (jsonRoundtrip (.arr outs)) = .ok (.arr outs)) ∧
    (∀ v outs, ensureVisitPayments v = .ok (.arr outs) →
      (∀ o ∈ outs, stableVisitItem o = true) →
      ensureVisitPayments (jsonRoundtrip (.arr outs)) = .ok (.arr outs)) ∧
    (∀ v outs, ensureMilestonePayments v = .ok (.arr outs) →
      (∀ o ∈ outs, stableMilestoneItem o = true) →
      ensureMilestonePayments (jsonRoundtrip (.arr outs)) = .ok (.arr outs)) :=
  ⟨ensureArray_idem,
   fun _ _ h hs => ensureProc_roundtrip h hs,
   fun _ _ h hs => ensureVisit_roundtrip h hs,
   fun _ _ h hs => ensureMilestone_roundtrip h hs⟩

set_option maxRecDepth 8000 in
theorem normalization_idempotent_witness :
    ensureProcedurePayments (jsonRoundtrip (.arr [.obj [
      ("procedure_name", .str "A"),
      ("payment_amount", .num (.dec 125 1)),
      ("currency", .str "USD"),
      ("per_patient", .bool true),
      ("visit_associated", .undefined),
      ("notes", .undefined)]])) =
      .ok (.arr [.obj [
      ("procedure_name", .str "A"),
      ("payment_amount", .num (.dec 125 1)),
      ("currency", .str "USD"),
      ("per_patient", .bool true),
      ("visit_associated", .undefined),
      ("notes", .undefined)]]) :=
  normalization_idempotent.2.1
    (.arr [.obj [("procedure_name", .str "A"), ("payment_amount", .str "12.5")]])
    _ (by decide) (by decide)

/-- C3 counterexample: a procedure payment whose raw amount is the
string "Infinity" is retained by the first normalization pass with the
amount Infinity; re-serialising turns Infinity into null (JSON has no
Infinity), and the second pass coerces null to 0 and drops the item —
so coerce∘serialise∘coerce differs from coerce. -/
theorem normalization_idempotent_cx :
    ensureProcedurePayments (.arr [.obj [
        ("procedure_name", .str "A"), ("payment_amount", .str "Infinity")]]) =
      .ok (.arr [.obj [
        ("procedure_name", .str "A"),
        ("payment_amount", .num (.inf true)),
        ("currency", .str "USD"),
        ("per_patient", .bool true),
        ("visit_associated", .undefined),
        ("notes", .undefined)]]) ∧
    ensureProcedurePayments (jsonRoundtrip (.arr [.obj [
        ("procedure_name", .str "A"),
        ("payment_amount", .num (.inf true)),
        ("currency", .str "USD"),
        ("per_patient", .bool true),
        ("visit_associated", .undefined),
        ("notes", .undefined)]])) = .ok (.arr []) ∧
    JsValue.arr ([] : List JsValue) ≠ .arr [.obj [
        ("procedure_name", .str "A"),
        ("payment_amount", .num (.inf true)),
        ("currency", .str "USD"),
        ("per_patient", .bool true),
        ("visit_associated", .undefined),
        ("notes", .undefined)]] := by
  exact ⟨by decide, by decide, by decide⟩
